import Mathlib

/-!
# Subscriptions service: a shallow embedding and its verified properties

The development follows the layering of the Go program:

* `time`, `uuid`, `strings`: the library functions the program calls, modelled on
  the behaviour of the Go standard library and of `github.com/google/uuid`;
* `models`: `Subscription` and the `MonthYear` wire format;
* `Repository`: the data access layer, which builds one statement per operation and
  runs it on a connection pool;
* `UseCase`: the business logic layer;
* `Handler`: the request layer.

Go strings are modelled by `String`; the parsers work on the list of characters.
The store is a parameter (`Pool`): every repository operation threads a `Db`, the
store state together with the log of the statements executed so far. Calls of the
logger change no result and are left out; the request context is not modelled.
-/

set_option autoImplicit false
set_option maxRecDepth 100000

namespace Subscriptions

deriving instance DecidableEq for Except

/-! ## Package `time` (UTC only) -/

namespace time

/-- An instant, as Go keeps it for a `Time` without monotonic reading: `sec` counts the
seconds since January 1, year 1, 00:00:00 UTC and `nsec` the nanoseconds within the second.
Every `Time` the program builds is in UTC (`time.Parse` without zone, `time.Date(.., time.UTC)`),
so the location is not represented; the zero `Time` is `⟨0, 0⟩`. -/
structure Time where
  sec : Int
  nsec : Int
  deriving DecidableEq, Repr

/-- The year of the absolute epoch of package `time`. -/
def absoluteZeroYear : Int := -292277022399

/-- Offset from the internal epoch (year 1) to the absolute epoch, in seconds:
`-(absoluteZeroYear - 1) * 365.2425 * 86400`. -/
def internalToAbsolute : Int := 9223371966579724800

/-- Go `time.Second`, in nanoseconds. -/
def Second : Int := 1000000000

/-- Go `isLeap`. The tests `year%4 == 0` are sign-insensitive, so Lean's `%` on `Int` agrees
with Go's truncated remainder here. -/
def isLeap (year : Int) : Bool :=
  year % 4 == 0 && (year % 100 != 0 || year % 400 == 0)

/-- Go `daysBefore`: `daysBefore[m]` counts the days of a non-leap year before month `m+1`. -/
def daysBefore : List Nat := [0, 31, 59, 90, 120, 151, 181, 212, 243, 273, 304, 334, 365]

/-- Go `daysIn(m, year)`. -/
def daysIn (m : Nat) (year : Int) : Nat :=
  if m = 2 ∧ isLeap year = true then 29
  else daysBefore.getD m 0 - daysBefore.getD (m - 1) 0

/-- Go `norm(hi, lo, base)`: bring `lo` into `[0, base)`, carrying into `hi`. Both divisions
have non-negative operands, where truncated and floored division agree. -/
def norm (hi lo base : Int) : Int × Int :=
  let (hi, lo) :=
    if lo < 0 then
      let n := (-lo - 1) / base + 1
      (hi - n, lo + n * base)
    else (hi, lo)
  if lo ≥ base then
    let n := lo / base
    (hi + n, lo - n * base)
  else (hi, lo)

/-- Go `daysSinceEpoch(year)`: days from the absolute epoch to the start of `year`. -/
def daysSinceEpoch (year : Int) : Nat :=
  let y := (year - absoluteZeroYear).toNat
  -- Add in days from 400-year cycles.
  let n := y / 400
  let y := y - 400 * n
  let d := 146097 * n
  -- Add in 100-year cycles.
  let n := y / 100
  let y := y - 100 * n
  let d := d + 36524 * n
  -- Add in 4-year cycles.
  let n := y / 4
  let y := y - 4 * n
  let d := d + 1461 * n
  -- Add in non-leap years.
  let n := y
  d + 365 * n

/-- Go `time.Date(year, month, day, hour, min, sec, nsec, time.UTC)`. The 64-bit arithmetic of
the original does not wrap for the years the program can produce, so it is done in `Int`. -/
def Date (year month day hour min sec nsec : Int) : Time :=
  -- Normalize month, overflowing into year.
  let m := month - 1
  let (year, m) := norm year m 12
  let month := m + 1
  -- Normalize nsec, sec, min, hour, overflowing into day.
  let (sec, nsec) := norm sec nsec 1000000000
  let (min, sec) := norm min sec 60
  let (hour, min) := norm hour min 60
  let (day, hour) := norm day hour 24
  -- Compute days since the absolute epoch.
  let d : Int := daysSinceEpoch year
  -- Add in days before this month.
  let d := d + (daysBefore.getD (month - 1).toNat 0 : Nat)
  let d := if isLeap year && month ≥ 3 then d + 1 else d
  -- Add in days before today.
  let d := d + (day - 1)
  -- Add in time elapsed today.
  let abs := d * 86400 + (hour * 3600 + min * 60 + sec)
  ⟨abs - internalToAbsolute, nsec⟩

/-- Go `Time.abs`: seconds since the absolute epoch. -/
def Time.abs (t : Time) : Nat := (t.sec + internalToAbsolute).toNat

/-- Go `Time.IsZero`. -/
def Time.IsZero (t : Time) : Bool := t.sec == 0 && t.nsec == 0

/-- Go `Time.Add(d)`, `d` in nanoseconds; `Int.tdiv` and `Int.tmod` are Go's `/` and `%`. -/
def Time.Add (t : Time) (d : Int) : Time :=
  let dsec := Int.tdiv d 1000000000
  let nsec := t.nsec + Int.tmod d 1000000000
  if nsec ≥ 1000000000 then ⟨t.sec + (dsec + 1), nsec - 1000000000⟩
  else if nsec < 0 then ⟨t.sec + (dsec - 1), nsec + 1000000000⟩
  else ⟨t.sec + dsec, nsec⟩

/-- The first half of Go `absDate`: the year of the day that holds `abs`, and the zero-based
day within that year. -/
def absYday (abs : Nat) : Int × Nat :=
  -- Split into time and day.
  let d := abs / 86400
  -- Account for 400 year cycles.
  let n := d / 146097
  let y := 400 * n
  let d := d - 146097 * n
  -- Cut off 100-year cycles; reduce n by 1 if it becomes 4.
  let n := d / 36524
  let n := n - n / 4
  let y := y + 100 * n
  let d := d - 36524 * n
  -- Cut off 4-year cycles.
  let n := d / 1461
  let y := y + 4 * n
  let d := d - 1461 * n
  -- Cut off years within a 4-year cycle; reduce n by 1 if it becomes 4.
  let n := d / 365
  let n := n - n / 4
  let y := y + n
  let d := d - 365 * n
  ((y : Int) + absoluteZeroYear, d)

/-- The second half of Go `absDate` (`full = true`): month and day of the month from the
zero-based day of the year; `leap` is `isLeap(year)`. -/
def monthDay (leap : Bool) (yday : Nat) : Nat × Nat :=
  if leap && yday == 31 + 29 - 1 then (2, 29)  -- Leap day.
  else
    -- After leap day; pretend it wasn't there.
    let day := if leap && decide (yday > 31 + 29 - 1) then yday - 1 else yday
    -- Estimate month on assumption that every month has 31 days.
    let month := day / 31
    let fin := daysBefore.getD (month + 1) 0
    if day ≥ fin then (month + 2, day - fin + 1)
    else (month + 1, day - daysBefore.getD month 0 + 1)

/-- Go `absDate(abs, true)`: year, month, day of the month. -/
def absDate (abs : Nat) : Int × Nat × Nat :=
  let (year, yday) := absYday abs
  (year, monthDay (isLeap year) yday)

/-- Days from the absolute epoch to the first day of month `m` of `year`, as `Date` counts
them: the days before the year, the days before the month, and the leap day if it has passed. -/
def monthStart (year : Int) (m : Nat) : Nat :=
  daysSinceEpoch year + daysBefore.getD (m - 1) 0 + (if isLeap year && decide (3 ≤ m) then 1 else 0)

/-- Go `Time.Year`. -/
def Time.Year (t : Time) : Int := (absDate t.abs).1

/-- Go `Time.Month`. -/
def Time.Month (t : Time) : Nat := (absDate t.abs).2.1

/-- Go `Time.Day`. -/
def Time.Day (t : Time) : Nat := (absDate t.abs).2.2

/-- Go `Time.Clock`: hour, minute and second within the day. -/
def Time.Clock (t : Time) : Nat × Nat × Nat :=
  let sec := t.abs % 86400
  let hour := sec / 3600
  let sec := sec - hour * 3600
  let min := sec / 60
  (hour, min, sec - min * 60)

/-- The elements of a layout the program uses, as Go `nextStdChunk` splits it. -/
inductive Chunk
  | lit (text : List Char)
  | stdZeroMonth
  | stdLongYear
  deriving DecidableEq, Repr

/-- The layout `"01-2006"` (MM-YYYY). -/
def layoutMonthYear : List Chunk := [Chunk.stdZeroMonth, Chunk.lit ['-'], Chunk.stdLongYear]

/-- The layout `"2006-01"` (YYYY-MM). -/
def layoutYearMonth : List Chunk := [Chunk.stdLongYear, Chunk.lit ['-'], Chunk.stdZeroMonth]

/-- The ways `time.Parse` fails on these layouts. -/
inductive ParseError
  | bad
  | monthOutOfRange
  | dayOutOfRange
  | extraText
  deriving DecidableEq, Repr

/-- Go `isDigit` on one character: `'0' <= c && c <= '9'`. -/
def isDigit (c : Char) : Bool := decide ('0'.toNat ≤ c.toNat) && decide (c.toNat ≤ '9'.toNat)

/-- Value of a decimal digit character. -/
def digitVal (c : Char) : Nat := c.toNat - '0'.toNat

/-- Go `getnum(s, fixed)`: one or two digits; exactly two when `fixed`. -/
def getnum (s : List Char) (fixed : Bool) : Except ParseError (Nat × List Char) :=
  match s with
  | [] => Except.error ParseError.bad
  | c0 :: rest =>
    if !isDigit c0 then Except.error ParseError.bad
    else match rest with
      | c1 :: rest1 =>
        if isDigit c1 then Except.ok (digitVal c0 * 10 + digitVal c1, rest1)
        else if fixed then Except.error ParseError.bad
        else Except.ok (digitVal c0, rest)
      | [] => if fixed then Except.error ParseError.bad else Except.ok (digitVal c0, rest)

/-- Go `leadingInt` followed by the check of `atoi` that nothing is left: the characters are all
digits and the value does not exceed `2^63`. -/
def leadingInt : List Char → Nat → Option Nat
  | [], x => some x
  | c :: cs, x =>
    if !isDigit c then none
    else if x > 2 ^ 63 / 10 then none
    else
      let x := x * 10 + digitVal c
      if x > 2 ^ 63 then none else leadingInt cs x

/-- Go `atoi`: optional sign, then digits only. -/
def atoi (s : List Char) : Option Int :=
  match s with
  | c :: rest =>
    if c = '-' then (leadingInt rest 0).map fun (q : Nat) => -(q : Int)
    else if c = '+' then (leadingInt rest 0).map fun (q : Nat) => (q : Int)
    else (leadingInt s 0).map fun (q : Nat) => (q : Int)
  | [] => some 0

/-- Go `skip(value, prefix)` for a literal without spaces: the value must start with it. -/
def skip : List Char → List Char → Except ParseError (List Char)
  | value, [] => Except.ok value
  | [], _ :: _ => Except.error ParseError.bad
  | v :: value, p :: pre => if v = p then skip value pre else Except.error ParseError.bad

/-- The fields `time.Parse` collects; a negative `month` or `day` means not set. -/
structure Fields where
  year : Int
  month : Int
  day : Int
  deriving DecidableEq, Repr

/-- The loop of Go `time.Parse` over the chunks of the layout. -/
def parseChunks : List Chunk → List Char → Fields → Except ParseError Fields
  | [], value, f => if value.length ≠ 0 then Except.error ParseError.extraText else Except.ok f
  | Chunk.lit text :: layout, value, f =>
    match skip value text with
    | Except.error e => Except.error e
    | Except.ok value => parseChunks layout value f
  | Chunk.stdZeroMonth :: layout, value, f =>
    match getnum value true with
    | Except.error e => Except.error e
    | Except.ok (month, value) =>
      if month ≤ 0 ∨ 12 < month then Except.error ParseError.monthOutOfRange
      else parseChunks layout value { f with month := month }
  | Chunk.stdLongYear :: layout, value, f =>
    match value with
    | c0 :: c1 :: c2 :: c3 :: rest =>
      if !isDigit c0 then Except.error ParseError.bad
      else match atoi [c0, c1, c2, c3] with
        | none => Except.error ParseError.bad
        | some year => parseChunks layout rest { f with year := year }
    | _ => Except.error ParseError.bad

/-- Go `time.Parse(layout, value)`: the parsed fields, defaulted to January 1, validated and
handed to `Date` in UTC. -/
def Parse (layout : List Chunk) (value : String) : Except ParseError Time :=
  match parseChunks layout value.data ⟨0, -1, -1⟩ with
  | Except.error e => Except.error e
  | Except.ok f =>
    let month := if f.month < 0 then 1 else f.month
    let day := if f.day < 0 then 1 else f.day
    if day < 1 ∨ day > daysIn month.toNat f.year then Except.error ParseError.dayOutOfRange
    else Except.ok (Date f.year month day 0 0 0 0)

/-- The character of a decimal digit. -/
def digitChar (d : Nat) : Char := Char.ofNat ('0'.toNat + d)

/-- Go `appendInt(b, x, width)`: the decimal form of `x`, zero-padded to `width`, with the
two fast paths for 2-digit and 4-digit fields. -/
def appendInt (x : Int) (width : Nat) : List Char :=
  let u := x.natAbs
  let sign := if x < 0 then ['-'] else []
  if width = 2 ∧ u < 100 then sign ++ [digitChar (u / 10), digitChar (u % 10)]
  else if width = 4 ∧ u < 10000 then
    sign ++ [digitChar (u / 100 / 10), digitChar (u / 100 % 10),
      digitChar (u % 100 / 10), digitChar (u % 100 % 10)]
  else
    let ds := Nat.toDigits 10 u
    sign ++ List.replicate (width - ds.length) '0' ++ ds

/-- Go `Time.Format(layout)` on the chunks of the layout. -/
def Time.Format (t : Time) : List Chunk → List Char
  | [] => []
  | Chunk.lit text :: layout => text ++ t.Format layout
  | Chunk.stdZeroMonth :: layout => appendInt t.Month 2 ++ t.Format layout
  | Chunk.stdLongYear :: layout => appendInt t.Year 4 ++ t.Format layout

end time

/-! ## Package `strings` -/

namespace strings

/-- Go `unicode.IsSpace`. -/
def isSpace (c : Char) : Bool :=
  let n := c.toNat
  n == 0x09 || n == 0x0A || n == 0x0B || n == 0x0C || n == 0x0D || n == 0x20
    || n == 0x85 || n == 0xA0 || n == 0x1680 || (0x2000 ≤ n && n ≤ 0x200A)
    || n == 0x2028 || n == 0x2029 || n == 0x202F || n == 0x205F || n == 0x3000

/-- Drop from both ends of `s` the characters that satisfy `p`. -/
def trimBoth (p : Char → Bool) (s : List Char) : List Char :=
  ((s.dropWhile p).reverse.dropWhile p).reverse

/-- Go `strings.TrimSpace`. -/
def TrimSpace (s : String) : String := ⟨trimBoth isSpace s.data⟩

/-- The pieces of `s` between the occurrences of `sep`, empty pieces included. -/
def splitOnChar (sep : Char) : List Char → List (List Char)
  | [] => [[]]
  | c :: cs =>
    if c = sep then [] :: splitOnChar sep cs
    else match splitOnChar sep cs with
      | [] => [[c]]
      | piece :: pieces => (c :: piece) :: pieces

/-- Go `strings.Split(s, ",")`. -/
def SplitComma (s : String) : List String := (splitOnChar ',' s.data).map String.mk

/-- Go `strings.Trim(s, cutset)` for the cutset of the double quote alone. -/
def TrimQuote (s : String) : String := ⟨trimBoth (fun c => c == '"') s.data⟩

end strings

/-! ## Package `github.com/google/uuid` -/

namespace uuid

/-- A UUID: its 16 bytes. -/
structure UUID where
  bytes : List Nat
  deriving DecidableEq, Repr

/-- Go `uuid.Nil`: sixteen zero bytes. -/
def Nil : UUID := ⟨List.replicate 16 0⟩

/-- Go `uuid.New()`: sixteen bytes from the random source, then version 4 and the RFC 4122
variant are stamped in: `b[6] = (b[6] & 0x0f) | 0x40`, `b[8] = (b[8] & 0x3f) | 0x80`. -/
def New (rnd : Fin 16 → Fin 256) : UUID :=
  ⟨(List.finRange 16).map fun i =>
    if i.val = 6 then ((rnd i).val &&& 0x0f) ||| 0x40
    else if i.val = 8 then ((rnd i).val &&& 0x3f) ||| 0x80
    else (rnd i).val⟩

/-- The UTF-8 bytes of a character: Go indexes and measures strings by byte. -/
def utf8 (c : Char) : List Nat :=
  let n := c.toNat
  if n < 0x80 then [n]
  else if n < 0x800 then [0xC0 + n / 64, 0x80 + n % 64]
  else if n < 0x10000 then [0xE0 + n / 4096, 0x80 + n / 64 % 64, 0x80 + n % 64]
  else [0xF0 + n / 262144, 0x80 + n / 4096 % 64, 0x80 + n / 64 % 64, 0x80 + n % 64]

/-- The bytes of a Go string. -/
def bytesOf (s : String) : List Nat := (s.data.map utf8).flatten

/-- The table `xvalues`: the value of a hexadecimal digit byte. -/
def xvalue (b : Nat) : Option Nat :=
  if 0x30 ≤ b ∧ b ≤ 0x39 then some (b - 0x30)
  else if 0x41 ≤ b ∧ b ≤ 0x46 then some (b - 0x41 + 10)
  else if 0x61 ≤ b ∧ b ≤ 0x66 then some (b - 0x61 + 10)
  else none

/-- Go `xtob(x1, x2)`: the byte written by two hexadecimal digits. -/
def xtob (x1 x2 : Nat) : Option Nat :=
  match xvalue x1, xvalue x2 with
  | some b1, some b2 => some (b1 * 16 + b2)
  | _, _ => none

/-- Decode the byte at each of the given offsets of `s`; fails when an offset is out of `s` or
does not hold two hexadecimal digits. -/
def hexAt (s : List Nat) : List Nat → Option (List Nat)
  | [] => some []
  | x :: xs =>
    match s.get? x, s.get? (x + 1) with
    | some x1, some x2 =>
      match xtob x1 x2, hexAt s xs with
      | some v, some vs => some (v :: vs)
      | _, _ => none
    | _, _ => none

/-- ASCII lower case of a byte. -/
def lowerByte (b : Nat) : Nat := if 0x41 ≤ b ∧ b ≤ 0x5A then b + 0x20 else b

/-- The bytes of `"urn:uuid:"`. -/
def urnBytes : List Nat := [0x75, 0x72, 0x6E, 0x3A, 0x75, 0x75, 0x69, 0x64, 0x3A]

/-- The tail of Go `uuid.Parse`: `s` must have the form `xxxxxxxx-xxxx-xxxx-xxxx-xxxxxxxxxxxx`
on its first 36 bytes. -/
def parseDashed (s : List Nat) : Option UUID :=
  if s.get? 8 ≠ some 0x2D ∨ s.get? 13 ≠ some 0x2D ∨ s.get? 18 ≠ some 0x2D
      ∨ s.get? 23 ≠ some 0x2D then none
  else (hexAt s [0, 2, 4, 6, 9, 11, 14, 16, 19, 21, 24, 26, 28, 30, 32, 34]).map UUID.mk

/-- Go `uuid.Parse(s)`: the switch on the byte length of `s` (36 plain, 45 with `urn:uuid:`,
38 in braces, 32 without dashes); `none` stands for the error. -/
def Parse (s : String) : Option UUID :=
  let b := bytesOf s
  if b.length = 36 then parseDashed b
  else if b.length = 36 + 9 then
    if (b.take 9).map lowerByte ≠ urnBytes then none else parseDashed (b.drop 9)
  else if b.length = 36 + 2 then parseDashed (b.drop 1)
  else if b.length = 32 then
    (hexAt b ((List.range 16).map fun i => i * 2)).map UUID.mk
  else none

end uuid

/-! ## Package `models` -/

namespace models

/-- Go `type MonthYear time.Time`. -/
structure MonthYear where
  t : time.Time
  deriving DecidableEq, Repr

/-- Go `models.Subscription`; the pointer fields `Price` and `EndDate` are options. -/
structure Subscription where
  ID : uuid.UUID
  ServiceName : String
  Price : Option Int
  UserID : uuid.UUID
  StartDate : MonthYear
  EndDate : Option MonthYear
  deriving DecidableEq, Repr

/-- Go `MonthYear.MarshalJSON`: the month and the year in the layout `"01-2006"`, quoted. -/
def MonthYear.MarshalJSON (m : MonthYear) : String :=
  ⟨['"'] ++ m.t.Format time.layoutMonthYear ++ ['"']⟩

/-- Go `(*MonthYear).UnmarshalJSON`: trim the quotes, parse in the layout `"01-2006"`. -/
def MonthYear.UnmarshalJSON (b : String) : Except time.ParseError MonthYear :=
  let s := strings.TrimQuote b
  match time.Parse time.layoutMonthYear s with
  | Except.error err => Except.error err
  | Except.ok t => Except.ok ⟨t⟩

/-- Go `MonthYear.Time`. -/
def MonthYear.Time (m : MonthYear) : time.Time := m.t

/-- Go `MonthYear.PtrTime`. -/
def MonthYear.PtrTime (m : MonthYear) : time.Time := m.t

end models

open models (MonthYear Subscription)
open uuid (UUID)

/-! ## Values, statements and the store -/

/-- The dynamic values (`interface{}`) the program handles: what `encoding/json` puts into a
`map[string]interface{}` (`null`, booleans, numbers, strings, and arrays or objects, kept as
their JSON text) and what the program itself passes to the statement builder. -/
inductive Value
  | null
  | bool (b : Bool)
  | number (x : Rat)
  | str (s : String)
  | composite (json : String)
  | time (t : time.Time)
  | uuid (u : UUID)
  | int (n : Int)
  | uuids (ids : List UUID)
  deriving DecidableEq, Repr

/-- A Go `map[string]interface{}`, as the list of its entries. Go leaves the order in which
`range` visits a map open, and it differs from one run to the next: the order of the list
stands for the order of the one `range` loop over the map (in `Repository.UpdateSubscription`)
on the run at hand. It is an input of the model, unrelated to the order of the members in the
request body, and the results about the map are stated up to it. -/
abbrev FieldMap := List (String × Value)

/-- Go `updates[k] = v`. -/
def FieldMap.set (m : FieldMap) (k : String) (v : Value) : FieldMap :=
  if (m.lookup k).isSome then m.map fun e => if e.1 = k then (k, v) else e
  else m ++ [(k, v)]

/-- A `squirrel` predicate: `Eq`, `GtOrEq` or `LtOrEq` on one column. -/
inductive Pred
  | Eq (column : String) (v : Value)
  | GtOrEq (column : String) (v : Value)
  | LtOrEq (column : String) (v : Value)
  deriving DecidableEq, Repr

/-- The statements the `squirrel` builder is asked for. -/
inductive Statement
  | Insert (table : String) (columns : List String) (values : List Value) (suffix : String)
  | Update (table : String) (sets : List (String × Value)) (preds : List Pred) (suffix : String)
  | Select (columns : List String) (table : String) (preds : List Pred)
  | Delete (table : String) (preds : List Pred)
  deriving DecidableEq, Repr

/-- The errors of the driver the program tells apart: `pgx.ErrNoRows`, a `pgconn.PgError`
with its SQLSTATE code, and any other error. -/
inductive DbError
  | ErrNoRows
  | PgError (severity : String) (code : String) (message : String)
  | other (message : String)
  deriving DecidableEq, Repr

/-- A Go `error` value of the program: made by `errors.New` or passed on from the driver. -/
inductive GoError
  | errorsNew (text : String)
  | driver (e : DbError)
  deriving DecidableEq, Repr

/-- Go `err.Error()`. -/
def GoError.Error : GoError → String
  | GoError.errorsNew text => text
  | GoError.driver DbError.ErrNoRows => "no rows in result set"
  | GoError.driver (DbError.PgError severity code message) =>
    severity ++ ": " ++ message ++ " (SQLSTATE " ++ code ++ ")"
  | GoError.driver (DbError.other message) => message

/-- The connection pool, over a store state `σ`: each call runs one statement and yields the
scanned result and the next state. `QueryRow` scans the six columns of one row, `Query` the
six columns of every row, `Exec` reports the rows affected, `QueryRowSum` scans one nullable
integer. -/
structure Pool (σ : Type) where
  QueryRow : Statement → σ → Except DbError Subscription × σ
  Query : Statement → σ → Except DbError (List Subscription) × σ
  Exec : Statement → σ → Except DbError Nat × σ
  QueryRowSum : Statement → σ → Except DbError (Option Int) × σ

/-- The store as the layers see it: its state and the statements executed so far. -/
structure Db (σ : Type) where
  state : σ
  log : List Statement

/-- The columns every row-returning statement lists. -/
def columns : List String := ["id", "service_name", "price", "user_id", "start_date", "end_date"]

/-- The `RETURNING` suffix of insert and update. -/
def returning : String := "RETURNING id, service_name, price, user_id, start_date, end_date"

/-- A `*int` as a statement argument. -/
def Value.ofPrice : Option Int → Value
  | none => Value.null
  | some n => Value.int n

/-- A `*time.Time` as a statement argument. -/
def Value.ofTimePtr : Option time.Time → Value
  | none => Value.null
  | some t => Value.time t

/-! ## The data access layer (`repo`) -/

namespace Repository

variable {σ : Type}

/-- The statement `CreateSubscription` builds: an insert of the six columns, the dates passed
as `StartDate.Time()` and, when there is an end date, `EndDate.PtrTime()`. -/
def insertQuery (subscriptionData : Subscription) : Statement :=
  let endDate : Option time.Time :=
    match subscriptionData.EndDate with
    | some e => some e.PtrTime
    | none => none
  Statement.Insert "subscriptions" columns
    [Value.uuid subscriptionData.ID,
     Value.str subscriptionData.ServiceName,
     Value.ofPrice subscriptionData.Price,
     Value.uuid subscriptionData.UserID,
     Value.time subscriptionData.StartDate.Time,
     Value.ofTimePtr endDate]
    returning

/-- Go `Repository.CreateSubscription`. -/
def CreateSubscription (pool : Pool σ) (subscriptionData : Subscription) (db : Db σ) :
    Except GoError Subscription × Db σ :=
  let query := insertQuery subscriptionData
  match pool.QueryRow query db.state with
  | (Except.error err, st) =>
    let db := ⟨st, db.log ++ [query]⟩
    match err with
    | DbError.PgError severity code message =>
      if code = "23505" then
        (Except.error (GoError.errorsNew "subscription with this id already exists"), db)
      else (Except.error (GoError.driver (DbError.PgError severity code message)), db)
    | err => (Except.error (GoError.driver err), db)
  | (Except.ok createdSubscription, st) => (Except.ok createdSubscription, ⟨st, db.log ++ [query]⟩)

/-- The statement `UpdateSubscription` builds: one `Set` per entry of the map, in the order in
which `range` yields the entries on this run (which Go does not fix), filtered by `id`. -/
def updateQuery (id : UUID) (updates : FieldMap) : Statement :=
  let sets := updates.foldl (fun builder e => builder ++ [(e.1, e.2)]) []
  Statement.Update "subscriptions" sets [Pred.Eq "id" (Value.uuid id)] returning

/-- Go `Repository.UpdateSubscription`. -/
def UpdateSubscription (pool : Pool σ) (id : UUID) (updates : FieldMap) (db : Db σ) :
    Except GoError Subscription × Db σ :=
  if updates.length = 0 then (Except.error (GoError.errorsNew "no fields to update"), db)
  else
    let query := updateQuery id updates
    match pool.QueryRow query db.state with
    | (Except.error err, st) =>
      let db := ⟨st, db.log ++ [query]⟩
      match err with
      | DbError.ErrNoRows => (Except.error (GoError.errorsNew "subscription not found"), db)
      | err => (Except.error (GoError.driver err), db)
    | (Except.ok updatedSubscription, st) =>
      (Except.ok updatedSubscription, ⟨st, db.log ++ [query]⟩)

/-- Go `Repository.GetSubscriptionByID`. -/
def GetSubscriptionByID (pool : Pool σ) (id : UUID) (db : Db σ) :
    Except GoError Subscription × Db σ :=
  let query := Statement.Select columns "subscriptions" [Pred.Eq "id" (Value.uuid id)]
  match pool.QueryRow query db.state with
  | (Except.error err, st) =>
    let db := ⟨st, db.log ++ [query]⟩
    match err with
    | DbError.ErrNoRows => (Except.error (GoError.errorsNew "subscription not found"), db)
    | err => (Except.error (GoError.driver err), db)
  | (Except.ok sub, st) => (Except.ok sub, ⟨st, db.log ++ [query]⟩)

/-- Go `Repository.GetAllSubscriptions`. -/
def GetAllSubscriptions (pool : Pool σ) (db : Db σ) :
    Except GoError (List Subscription) × Db σ :=
  let query := Statement.Select columns "subscriptions" []
  match pool.Query query db.state with
  | (Except.error err, st) => (Except.error (GoError.driver err), ⟨st, db.log ++ [query]⟩)
  | (Except.ok subs, st) => (Except.ok subs, ⟨st, db.log ++ [query]⟩)

/-- Go `Repository.DeleteSubscription`; `none` is the `nil` error. -/
def DeleteSubscription (pool : Pool σ) (id : UUID) (db : Db σ) : Option GoError × Db σ :=
  let query := Statement.Delete "subscriptions" [Pred.Eq "id" (Value.uuid id)]
  match pool.Exec query db.state with
  | (Except.error err, st) => (some (GoError.driver err), ⟨st, db.log ++ [query]⟩)
  | (Except.ok rowsAffected, st) =>
    if rowsAffected = 0 then
      (some (GoError.errorsNew "subscription not found"), ⟨st, db.log ++ [query]⟩)
    else (none, ⟨st, db.log ++ [query]⟩)

/-- The `start_date` filter of `GetSumSubscriptions`: the predicates it adds to the builder. -/
def startDatePreds (startDate : String) : List Pred :=
  if startDate ≠ "" then
    match time.Parse time.layoutMonthYear startDate with
    | Except.error _ => []
    | Except.ok t =>
      let startTime := time.Date t.Year t.Month 1 0 0 0 0
      [Pred.GtOrEq "start_date" (Value.time startTime)]
  else []

/-- The `end_date` filter of `GetSumSubscriptions`: the predicates it adds to the builder. -/
def endDatePreds (endDate : String) : List Pred :=
  if endDate ≠ "" then
    match time.Parse time.layoutMonthYear endDate with
    | Except.error _ => []
    | Except.ok t =>
      let endTime := (time.Date t.Year (t.Month + 1) 1 0 0 0 0).Add (-time.Second)
      [Pred.LtOrEq "end_date" (Value.time endTime)]
  else []

/-- The `name` filter of `GetSumSubscriptions`. -/
def namePreds (name : String) : List Pred :=
  if name ≠ "" then [Pred.Eq "service_name" (Value.str name)] else []

/-- The ids `GetSumSubscriptions` keeps from `users_ids`: each piece between commas is trimmed,
skipped when empty or when `uuid.Parse` fails, appended otherwise. -/
def validIDs (usersIds : String) : List UUID :=
  (strings.SplitComma usersIds).foldl
    (fun validIDs idStr =>
      let idStr := strings.TrimSpace idStr
      if idStr = "" then validIDs
      else match uuid.Parse idStr with
        | none => validIDs
        | some id => validIDs ++ [id])
    []

/-- The `users_ids` filter of `GetSumSubscriptions`. -/
def usersPreds (usersIds : String) : List Pred :=
  if usersIds ≠ "" then
    let ids := validIDs usersIds
    if ids.length > 0 then [Pred.Eq "user_id" (Value.uuids ids)] else []
  else []

/-- The statement `GetSumSubscriptions` builds: the four filters, in the order of the source. -/
def sumQuery (startDate endDate name usersIds : String) : Statement :=
  Statement.Select ["SUM(price)"] "subscriptions"
    (startDatePreds startDate ++ endDatePreds endDate ++ namePreds name ++ usersPreds usersIds)

/-- Go `Repository.GetSumSubscriptions`. -/
def GetSumSubscriptions (pool : Pool σ) (startDate endDate name usersIds : String) (db : Db σ) :
    Except GoError Int × Db σ :=
  let query := sumQuery startDate endDate name usersIds
  match pool.QueryRowSum query db.state with
  | (Except.error err, st) => (Except.error (GoError.driver err), ⟨st, db.log ++ [query]⟩)
  | (Except.ok none, st) => (Except.ok 0, ⟨st, db.log ++ [query]⟩)
  | (Except.ok (some sum), st) => (Except.ok sum, ⟨st, db.log ++ [query]⟩)

/-- The ids of the `users_ids` filter in the words of the specification: split at the commas, trim
the whitespace around each piece, keep, in their order, the pieces that parse as UUIDs. -/
def specUserIDs (usersIds : String) : List UUID :=
  ((strings.SplitComma usersIds).map strings.TrimSpace).filterMap uuid.Parse

end Repository

/-! ## The business logic layer (`usecase`) -/

namespace UseCase

variable {σ : Type}

/-- Go `UseCase.CreateSubscription`; `rnd` is what the random source yields if `uuid.New()`
is called. -/
def CreateSubscription (pool : Pool σ) (rnd : Fin 16 → Fin 256) (subscriptionData : Subscription)
    (db : Db σ) : Except GoError Subscription × Db σ :=
  let subscriptionData :=
    if subscriptionData.ID = uuid.Nil then { subscriptionData with ID := uuid.New rnd }
    else subscriptionData
  let nilTime : time.Time := ⟨0, 0⟩
  if subscriptionData.StartDate = MonthYear.mk nilTime then
    (Except.error (GoError.errorsNew "start date is nil"), db)
  else Repository.CreateSubscription pool subscriptionData db

/-- Go `UseCase.UpdateSubscription`. -/
def UpdateSubscription (pool : Pool σ) (id : UUID) (updates : FieldMap) (db : Db σ) :
    Except GoError Subscription × Db σ :=
  if id = uuid.Nil then (Except.error (GoError.errorsNew "id is required"), db)
  else if updates.length = 0 then (Except.error (GoError.errorsNew "no fields to update"), db)
  else
    let zeroStart :=
      match updates.lookup "start_date" with
      | some (Value.time t) => t.IsZero
      | _ => false
    if zeroStart then (Except.error (GoError.errorsNew "start date is nil"), db)
    else Repository.UpdateSubscription pool id updates db

/-- Go `UseCase.GetSubscriptionByID`. -/
def GetSubscriptionByID (pool : Pool σ) (id : UUID) (db : Db σ) :
    Except GoError Subscription × Db σ :=
  if id = uuid.Nil then (Except.error (GoError.errorsNew "id is required"), db)
  else Repository.GetSubscriptionByID pool id db

/-- Go `UseCase.GetAllSubscriptions`. -/
def GetAllSubscriptions (pool : Pool σ) (db : Db σ) :
    Except GoError (List Subscription) × Db σ :=
  Repository.GetAllSubscriptions pool db

/-- Go `UseCase.DeleteSubscription`; `none` is the `nil` error. -/
def DeleteSubscription (pool : Pool σ) (id : UUID) (db : Db σ) : Option GoError × Db σ :=
  if id = uuid.Nil then (some (GoError.errorsNew "id is required"), db)
  else Repository.DeleteSubscription pool id db

/-- Go `UseCase.GetSumSubscriptions`. -/
def GetSumSubscriptions (pool : Pool σ) (startDate endDate name usersIds : String) (db : Db σ) :
    Except GoError Int × Db σ :=
  Repository.GetSumSubscriptions pool startDate endDate name usersIds db

end UseCase

/-! ## The request layer (`delivery/http`) -/

namespace http

/-- Go `http.StatusOK`. -/
def StatusOK : Nat := 200
/-- Go `http.StatusCreated`. -/
def StatusCreated : Nat := 201
/-- Go `http.StatusNoContent`. -/
def StatusNoContent : Nat := 204
/-- Go `http.StatusBadRequest`. -/
def StatusBadRequest : Nat := 400
/-- Go `http.StatusNotFound`. -/
def StatusNotFound : Nat := 404
/-- Go `http.StatusInternalServerError`. -/
def StatusInternalServerError : Nat := 500

end http

/-- What a handler writes as the body of its response. -/
inductive Payload
  | error (message : String)
  | subscription (sub : Subscription)
  | subscriptions (subs : List Subscription)
  | msg (text : String)
  | sum (sum : Int)
  deriving DecidableEq, Repr

/-- The response of a handler: status code and body. -/
structure Response where
  status : Nat
  body : Payload
  deriving DecidableEq, Repr

namespace responser

/-- Modelled from the spec: `responser.SendErr` of package `pkg/responser`, which is not among
the sources. "Error responses return a JSON object carrying an error message string", under
the status code the handler passes. -/
def SendErr (status : Nat) (message : String) : Response := ⟨status, Payload.error message⟩

/-- Modelled from the spec: `responser.SendOK` of package `pkg/responser`, which is not among
the sources. "Success responses return the payload directly (record, array, or object) with
the given status code." -/
def SendOK (status : Nat) (payload : Payload) : Response := ⟨status, payload⟩

end responser

namespace reader

/-- Modelled from the spec: the object of a create request as `reader.ReadResponseData` of
package `pkg/reader` (not among the sources) decodes it. A member that is absent leaves the
field of the target as it was: `id` is the only field the handler sets beforehand, so it is
the only optional one; the others hold the zero value when absent. -/
structure CreateBody where
  id : Option UUID
  service_name : String
  price : Option Int
  user_id : UUID
  start_date : MonthYear
  end_date : Option MonthYear
  deriving DecidableEq, Repr

/-- Modelled from the spec: `reader.ReadResponseData(r, subscriptionData)` of package
`pkg/reader`, which is not among the sources: the handler "parses path/query/body". The body of
the request is given by the outcome of decoding it, an error text or the decoded object, which
is written over the target. -/
def ReadSubscription (body : Except String CreateBody) (target : Subscription) :
    Except String Subscription :=
  match body with
  | Except.error err => Except.error err
  | Except.ok b =>
    Except.ok
      { ID := b.id.getD target.ID, ServiceName := b.service_name, Price := b.price,
        UserID := b.user_id, StartDate := b.start_date, EndDate := b.end_date }

/-- Modelled from the spec: `reader.ReadResponseData(r, &updates)` of package `pkg/reader`,
which is not among the sources. The body of the request is given by the outcome of decoding it
into a map: an error text or the entries. -/
def ReadFieldMap (body : Except String FieldMap) : Except String FieldMap := body

end reader

namespace Handler

variable {σ : Type}

/-- Go `Handler.CreateSubscription`; `rnd` and `rnd2` are what the random source yields to the
`uuid.New()` of the handler and to that of the business logic. -/
def CreateSubscription (pool : Pool σ) (rnd rnd2 : Fin 16 → Fin 256)
    (body : Except String reader.CreateBody) (db : Db σ) : Response × Db σ :=
  let subscriptionData : Subscription :=
    { ID := uuid.New rnd, ServiceName := "", Price := none, UserID := uuid.Nil,
      StartDate := ⟨⟨0, 0⟩⟩, EndDate := none }
  match reader.ReadSubscription body subscriptionData with
  | Except.error err => (responser.SendErr http.StatusInternalServerError err, db)
  | Except.ok subscriptionData =>
    if subscriptionData.ServiceName = "" then
      (responser.SendErr http.StatusBadRequest
        "create subscription request err: service name is nil", db)
    else
      let nilTime : time.Time := ⟨0, 0⟩
      if subscriptionData.StartDate = MonthYear.mk nilTime then
        (responser.SendErr http.StatusBadRequest
          "create subscription request err: start date is nil", db)
      else if subscriptionData.Price = none then
        (responser.SendErr http.StatusBadRequest
          "create subscription request err: price is nil", db)
      else if subscriptionData.UserID = uuid.Nil then
        (responser.SendErr http.StatusBadRequest
          "create subscription request err: user_id is nil", db)
      else
        match UseCase.CreateSubscription pool rnd2 subscriptionData db with
        | (Except.error err, db) =>
          (responser.SendErr http.StatusInternalServerError err.Error, db)
        | (Except.ok createdSubscription, db) =>
          (responser.SendOK http.StatusCreated (Payload.subscription createdSubscription), db)

/-- The `start_date` step of `Handler.UpdateSubscription`: a string under `start_date` must
parse in the layout `"2006-01"` to a time that is not zero, which then takes its place in the
map; `none` stands for the answer `invalid start_date`. -/
def parsedStartDate (updates : FieldMap) : Option FieldMap :=
  match updates.lookup "start_date" with
  | some (Value.str t) =>
    match time.Parse time.layoutYearMonth t with
    | Except.error _ => none
    | Except.ok parsedTime =>
      if parsedTime.IsZero then none
      else some (updates.set "start_date" (Value.time parsedTime))
  | _ => some updates

/-- Go `Handler.UpdateSubscription`; `idVar` is the entry `id` of `mux.Vars(r)`, if any. -/
def UpdateSubscription (pool : Pool σ) (idVar : Option String)
    (body : Except String FieldMap) (db : Db σ) : Response × Db σ :=
  match idVar with
  | none => (responser.SendErr http.StatusBadRequest "id is required", db)
  | some idStr =>
    if idStr = "" then (responser.SendErr http.StatusBadRequest "id is required", db)
    else match uuid.Parse idStr with
      | none => (responser.SendErr http.StatusBadRequest "invalid id format", db)
      | some id =>
        match reader.ReadFieldMap body with
        | Except.error err => (responser.SendErr http.StatusBadRequest err, db)
        | Except.ok updates =>
          if updates.length = 0 then
            (responser.SendErr http.StatusBadRequest "no fields to update", db)
          else
            match parsedStartDate updates with
            | none => (responser.SendErr http.StatusBadRequest "invalid start_date", db)
            | some updates =>
              match UseCase.UpdateSubscription pool id updates db with
              | (Except.error err, db) =>
                (responser.SendErr http.StatusInternalServerError err.Error, db)
              | (Except.ok updatedSubscription, db) =>
                (responser.SendOK http.StatusOK (Payload.subscription updatedSubscription), db)

/-- Go `Handler.GetSubscriptionByID`; an absent path variable reads as the empty string. -/
def GetSubscriptionByID (pool : Pool σ) (idVar : Option String) (db : Db σ) : Response × Db σ :=
  let idStr := idVar.getD ""
  match uuid.Parse idStr with
  | none => (responser.SendErr http.StatusBadRequest "invalid id format", db)
  | some id =>
    match UseCase.GetSubscriptionByID pool id db with
    | (Except.error err, db) => (responser.SendErr http.StatusNotFound err.Error, db)
    | (Except.ok sub, db) => (responser.SendOK http.StatusOK (Payload.subscription sub), db)

/-- Go `Handler.GetAllSubscriptions`. -/
def GetAllSubscriptions (pool : Pool σ) (db : Db σ) : Response × Db σ :=
  match UseCase.GetAllSubscriptions pool db with
  | (Except.error err, db) => (responser.SendErr http.StatusInternalServerError err.Error, db)
  | (Except.ok subs, db) => (responser.SendOK http.StatusOK (Payload.subscriptions subs), db)

/-- Go `Handler.DeleteSubscription`. -/
def DeleteSubscription (pool : Pool σ) (idVar : Option String) (db : Db σ) : Response × Db σ :=
  let idStr := idVar.getD ""
  match uuid.Parse idStr with
  | none => (responser.SendErr http.StatusBadRequest "invalid id format", db)
  | some id =>
    match UseCase.DeleteSubscription pool id db with
    | (some err, db) =>
      if err.Error = "subscription not found" then
        (responser.SendErr http.StatusNotFound err.Error, db)
      else (responser.SendErr http.StatusInternalServerError err.Error, db)
    | (none, db) => (responser.SendOK http.StatusNoContent (Payload.msg "subscription deleted"), db)

/-- Go `Handler.GetSumSubscriptions`: the four query parameters, empty when absent. -/
def GetSumSubscriptions (pool : Pool σ) (startDate endDate nameService usersIds : String)
    (db : Db σ) : Response × Db σ :=
  match UseCase.GetSumSubscriptions pool startDate endDate nameService usersIds db with
  | (Except.error err, db) => (responser.SendErr http.StatusInternalServerError err.Error, db)
  | (Except.ok sum, db) => (responser.SendOK http.StatusOK (Payload.sum sum), db)

end Handler

/-! ## An in-memory store

An instance of `Pool` on which the layers can be run on concrete requests: the table is the
list of its rows. It is an example; the theorems that speak of a pool hold for every pool. -/

namespace memory

/-- The id a statement of the repository filters on. -/
def whereId : List Pred → Option UUID
  | [Pred.Eq "id" (Value.uuid id)] => some id
  | _ => none

/-- The row an insert statement of the repository carries. -/
def insertedRow : Statement → Option Subscription
  | Statement.Insert _ _ [Value.uuid id, Value.str name, price, Value.uuid user,
      Value.time start, fin] _ =>
    let price := match price with | Value.int n => some n | _ => none
    let fin := match fin with | Value.time t => some (MonthYear.mk t) | _ => none
    some ⟨id, name, price, user, ⟨start⟩, fin⟩
  | _ => none

/-- Overwrite one column of a row; `none` when the column is unknown or the value does not
fit its type. -/
def setColumn (row : Subscription) : String × Value → Option Subscription
  | ("id", Value.uuid u) => some { row with ID := u }
  | ("id", Value.str s) => (uuid.Parse s).map fun u => { row with ID := u }
  | ("service_name", Value.str s) => some { row with ServiceName := s }
  | ("price", Value.int n) => some { row with Price := some n }
  | ("price", Value.number x) => if x.den = 1 then some { row with Price := some x.num } else none
  | ("price", Value.null) => some { row with Price := none }
  | ("user_id", Value.uuid u) => some { row with UserID := u }
  | ("user_id", Value.str s) => (uuid.Parse s).map fun u => { row with UserID := u }
  | ("start_date", Value.time t) => some { row with StartDate := ⟨t⟩ }
  | ("end_date", Value.time t) => some { row with EndDate := some ⟨t⟩ }
  | ("end_date", Value.null) => some { row with EndDate := none }
  | _ => none

/-- Overwrite the columns of a row, one `SET` clause after the other. -/
def setColumns : List (String × Value) → Subscription → Option Subscription
  | [], row => some row
  | e :: sets, row =>
    match setColumn row e with
    | none => none
    | some row => setColumns sets row

/-- Order of instants. -/
def timeLe (a b : time.Time) : Bool := a.sec < b.sec || (a.sec == b.sec && a.nsec ≤ b.nsec)

/-- Whether a row satisfies a predicate of the sum query; a `NULL` column satisfies none. -/
def holds (row : Subscription) : Pred → Bool
  | Pred.GtOrEq "start_date" (Value.time t) => timeLe t row.StartDate.t
  | Pred.LtOrEq "end_date" (Value.time t) =>
    match row.EndDate with
    | some e => timeLe e.t t
    | none => false
  | Pred.Eq "service_name" (Value.str name) => row.ServiceName == name
  | Pred.Eq "user_id" (Value.uuids ids) => ids.contains row.UserID
  | Pred.Eq "id" (Value.uuid id) => row.ID == id
  | _ => false

/-- The `SUM` of a list of nullable prices: `NULL` when no price is present. -/
def sumPrices (prices : List (Option Int)) : Option Int :=
  match prices.filterMap id with
  | [] => none
  | present => some present.sum

/-- The pool of the in-memory store. -/
def pool : Pool (List Subscription) where
  QueryRow stmt rows :=
    match stmt with
    | Statement.Insert _ _ _ _ =>
      match insertedRow stmt with
      | none => (Except.error (DbError.other "bad insert"), rows)
      | some row =>
        if rows.any (fun r => r.ID == row.ID) then
          (Except.error (DbError.PgError "ERROR" "23505" "duplicate key value"), rows)
        else (Except.ok row, rows ++ [row])
    | Statement.Update _ sets preds _ =>
      match whereId preds with
      | none => (Except.error (DbError.other "bad update"), rows)
      | some id =>
        match rows.find? (fun r => r.ID == id) with
        | none => (Except.error DbError.ErrNoRows, rows)
        | some old =>
          match setColumns sets old with
          | none => (Except.error (DbError.PgError "ERROR" "42804" "datatype mismatch"), rows)
          | some new => (Except.ok new, rows.map fun r => if r.ID == id then new else r)
    | Statement.Select _ _ preds =>
      match rows.find? (fun r => preds.all (holds r)) with
      | none => (Except.error DbError.ErrNoRows, rows)
      | some row => (Except.ok row, rows)
    | Statement.Delete _ _ => (Except.error (DbError.other "not a query"), rows)
  Query stmt rows :=
    match stmt with
    | Statement.Select _ _ preds => (Except.ok (rows.filter fun r => preds.all (holds r)), rows)
    | _ => (Except.error (DbError.other "not a query"), rows)
  Exec stmt rows :=
    match stmt with
    | Statement.Delete _ preds =>
      ((Except.ok (rows.filter fun r => preds.all (holds r)).length),
        rows.filter fun r => !preds.all (holds r))
    | _ => (Except.error (DbError.other "not a command"), rows)
  QueryRowSum stmt rows :=
    match stmt with
    | Statement.Select _ _ preds =>
      (Except.ok (sumPrices ((rows.filter fun r => preds.all (holds r)).map (·.Price))), rows)
    | _ => (Except.error (DbError.other "not a query"), rows)

/-- The store with the given rows, before any statement. -/
def db (rows : List Subscription) : Db (List Subscription) := ⟨rows, []⟩

/-- A sample id, `123e4567-e89b-12d3-a456-426614174000`. -/
def sampleId : UUID :=
  ⟨[0x12, 0x3e, 0x45, 0x67, 0xe8, 0x9b, 0x12, 0xd3, 0xa4, 0x56, 0x42, 0x66, 0x14, 0x17, 0x40, 0x00]⟩

/-- A sample record: Netflix at 999 from March 2024, without end date. -/
def sampleRow : Subscription :=
  ⟨sampleId, "Netflix", some 999, sampleId, ⟨time.Date 2024 3 1 0 0 0 0⟩, none⟩

end memory

end Subscriptions

/-! ## Calendar arithmetic -/

namespace Subscriptions

namespace time

theorem isLeap_iff (Y : Nat) :
    isLeap ((Y : Int) + absoluteZeroYear) = true ↔
      (Y % 4 = 3 ∧ (Y % 100 ≠ 99 ∨ Y % 400 = 399)) := by
  simp only [isLeap, absoluteZeroYear, Bool.and_eq_true, Bool.or_eq_true, beq_iff_eq, bne_iff_ne,
    ne_eq]
  omega

theorem cut_cycle (k b r : Nat) (hk : 0 < k) (hr : r < k ∨ (b = 3 ∧ r = k)) :
    (k * b + r) / k - ((k * b + r) / k) / 4 = b ∨ 4 ≤ b := by
  rcases hr with hr | ⟨hb3, hr⟩
  · have : (k * b + r) / k = b := by
      rw [Nat.mul_add_div hk, Nat.div_eq_of_lt hr]; rfl
    rw [this]; omega
  · subst hb3 hr
    have : (r * 3 + r) / r = 4 := by
      have h : r * 3 + r = 4 * r := by ring
      rw [h, Nat.mul_div_cancel _ hk]
    rw [this]; left; rfl

theorem daysSinceEpoch_eq (Y : Nat) :
    daysSinceEpoch ((Y : Int) + absoluteZeroYear)
      = 146097 * (Y / 400) + 36524 * (Y % 400 / 100) + 1461 * (Y % 100 / 4) + 365 * (Y % 4) := by
  have h0 : ((Y : Int) + absoluteZeroYear - absoluteZeroYear).toNat = Y := by simp
  simp only [daysSinceEpoch, h0]
  have h1 : Y - 400 * (Y / 400) = Y % 400 := by omega
  rw [h1]
  have h2 : Y % 400 - 100 * (Y % 400 / 100) = Y % 100 := by omega
  rw [h2]
  have h3 : Y % 100 - 4 * (Y % 100 / 4) = Y % 4 := by omega
  rw [h3]

theorem absYday_split (a b c e yd s : Nat) (hs : s < 86400) (hb4 : b < 4) (hc25 : c < 25)
    (he4 : e < 4) (hyd : yd < 365 ∨ (yd = 365 ∧ e = 3 ∧ (c ≠ 24 ∨ b = 3))) :
    absYday ((146097 * a + 36524 * b + 1461 * c + 365 * e + yd) * 86400 + s)
      = (((400 * a + 100 * b + 4 * c + e : Nat) : Int) + absoluteZeroYear, yd) := by
  simp only [absYday]
  have hdiv : ((146097 * a + 36524 * b + 1461 * c + 365 * e + yd) * 86400 + s) / 86400
      = 146097 * a + (36524 * b + (1461 * c + (365 * e + yd))) := by omega
  rw [hdiv]
  clear hdiv
  have h1 : (146097 * a + (36524 * b + (1461 * c + (365 * e + yd)))) / 146097 = a := by
    have : 36524 * b + (1461 * c + (365 * e + yd)) < 146097 := by omega
    rw [Nat.mul_add_div (by norm_num), Nat.div_eq_of_lt this]; rfl
  rw [h1, Nat.add_sub_cancel_left]
  clear h1
  have h2 : (36524 * b + (1461 * c + (365 * e + yd))) / 36524
      - (36524 * b + (1461 * c + (365 * e + yd))) / 36524 / 4 = b := by
    have hr : 1461 * c + (365 * e + yd) < 36524
        ∨ (b = 3 ∧ 1461 * c + (365 * e + yd) = 36524) := by omega
    rcases cut_cycle 36524 b (1461 * c + (365 * e + yd)) (by norm_num) hr with h | h
    · exact h
    · omega
  rw [h2, Nat.add_sub_cancel_left]
  clear h2
  have h3 : (1461 * c + (365 * e + yd)) / 1461 = c := by
    have : 365 * e + yd < 1461 := by omega
    rw [Nat.mul_add_div (by norm_num), Nat.div_eq_of_lt this]; rfl
  rw [h3, Nat.add_sub_cancel_left]
  clear h3
  have h4 : (365 * e + yd) / 365 - (365 * e + yd) / 365 / 4 = e := by
    have hr : yd < 365 ∨ (e = 3 ∧ yd = 365) := by omega
    rcases cut_cycle 365 e yd (by norm_num) hr with h | h
    · exact h
    · omega
  rw [h4, Nat.add_sub_cancel_left]

theorem absYday_eq (Y yd s : Nat) (hs : s < 86400)
    (hyd : yd < 365 ∨ (yd = 365 ∧ isLeap ((Y : Int) + absoluteZeroYear) = true)) :
    absYday ((daysSinceEpoch ((Y : Int) + absoluteZeroYear) + yd) * 86400 + s)
      = ((Y : Int) + absoluteZeroYear, yd) := by
  rw [isLeap_iff] at hyd
  rw [daysSinceEpoch_eq]
  have hY : 400 * (Y / 400) + 100 * (Y % 400 / 100) + 4 * (Y % 100 / 4) + Y % 4 = Y := by omega
  have h := absYday_split (Y / 400) (Y % 400 / 100) (Y % 100 / 4) (Y % 4) yd s hs
    (by omega) (by omega) (by omega) (by omega)
  rw [hY] at h
  exact h

theorem monthDay_table : ∀ l : Bool, ∀ m : Fin 13, ∀ d : Fin 32, 1 ≤ m.val → 1 ≤ d.val →
    d.val ≤ (if m.val = 2 ∧ l = true then 29
      else daysBefore.getD m.val 0 - daysBefore.getD (m.val - 1) 0) →
    monthDay l (daysBefore.getD (m.val - 1) 0 + (if l && decide (3 ≤ m.val) then 1 else 0)
      + (d.val - 1)) = (m.val, d.val) := by
  decide

theorem daysIn_le (m : Nat) (year : Int) (hm1 : 1 ≤ m) (hm12 : m ≤ 12) :
    1 ≤ daysIn m year ∧ daysIn m year ≤ 31 := by
  unfold daysIn
  split
  · omega
  · interval_cases m <;> simp [daysBefore]

theorem monthDay_eq (year : Int) (m d : Nat) (hm1 : 1 ≤ m) (hm12 : m ≤ 12) (hd1 : 1 ≤ d)
    (hd : d ≤ daysIn m year) :
    monthDay (isLeap year) (daysBefore.getD (m - 1) 0
      + (if isLeap year && decide (3 ≤ m) then 1 else 0) + (d - 1)) = (m, d) := by
  have hd32 : d < 32 := by
    have := (daysIn_le m year hm1 hm12).2
    omega
  unfold daysIn at hd
  exact monthDay_table (isLeap year) ⟨m, by omega⟩ ⟨d, hd32⟩ hm1 hd1 hd

theorem norm_id (hi lo base : Int) (h0 : 0 ≤ lo) (h1 : lo < base) : norm hi lo base = (hi, lo) := by
  simp only [norm, not_lt.mpr h0, if_false, ge_iff_le, not_le.mpr h1]

theorem Date_first (year : Int) (m : Nat) (hm1 : 1 ≤ m) (hm12 : m ≤ 12) :
    Date year m 1 0 0 0 0 = ⟨(monthStart year m : Int) * 86400 - internalToAbsolute, 0⟩ := by
  have hn : norm year ((m : Int) - 1) 12 = (year, (m : Int) - 1) :=
    norm_id _ _ _ (by omega) (by omega)
  have h3 : decide ((m : Int) - 1 + 1 ≥ 3) = decide (3 ≤ m) := by
    apply decide_eq_decide.mpr
    omega
  have ht : ((m : Int) - 1 + 1 - 1).toNat = m - 1 := by omega
  have n1 : norm 0 0 1000000000 = (0, 0) := by decide
  have n2 : norm 0 0 60 = (0, 0) := by decide
  have n3 : norm 1 0 24 = (1, 0) := by decide
  unfold Date
  simp only [hn, n1, n2, n3, h3, ht, monthStart]
  congr 1
  split <;> push_cast <;> ring

theorem daysSinceEpoch_succ (Y : Nat) :
    daysSinceEpoch ((Y : Int) + absoluteZeroYear + 1)
      = daysSinceEpoch ((Y : Int) + absoluteZeroYear) + 365
        + (if isLeap ((Y : Int) + absoluteZeroYear) then 1 else 0) := by
  have e : (Y : Int) + absoluteZeroYear + 1 = ((Y + 1 : Nat) : Int) + absoluteZeroYear := by
    push_cast; ring
  rw [e, daysSinceEpoch_eq, daysSinceEpoch_eq]
  by_cases hl : isLeap ((Y : Int) + absoluteZeroYear) = true
  · rw [if_pos hl]
    rw [isLeap_iff] at hl
    omega
  · rw [if_neg hl]
    rw [isLeap_iff] at hl
    omega

theorem monthStart_next (Y m : Nat) (hm1 : 1 ≤ m) (hm12 : m ≤ 12) :
    (if m = 12 then monthStart ((Y : Int) + absoluteZeroYear + 1) 1
      else monthStart ((Y : Int) + absoluteZeroYear) (m + 1))
      = monthStart ((Y : Int) + absoluteZeroYear) m + daysIn m ((Y : Int) + absoluteZeroYear) := by
  by_cases h12 : m = 12
  · subst h12
    rw [if_pos rfl]
    simp only [monthStart, daysSinceEpoch_succ, daysIn]
    cases isLeap ((Y : Int) + absoluteZeroYear) <;> simp [daysBefore]
  · rw [if_neg h12]
    simp only [monthStart, daysIn]
    cases isLeap ((Y : Int) + absoluteZeroYear) <;> interval_cases m <;> simp [daysBefore]

theorem yday_bound (year : Int) (m d : Nat) (hm1 : 1 ≤ m) (hm12 : m ≤ 12) (hd1 : 1 ≤ d)
    (hd : d ≤ daysIn m year) :
    daysBefore.getD (m - 1) 0 + (if isLeap year && decide (3 ≤ m) then 1 else 0) + (d - 1) < 365
      ∨ (daysBefore.getD (m - 1) 0 + (if isLeap year && decide (3 ≤ m) then 1 else 0) + (d - 1)
          = 365 ∧ isLeap year = true) := by
  unfold daysIn at hd
  generalize isLeap year = l at hd ⊢
  cases l <;> interval_cases m <;> simp [daysBefore] at hd ⊢ <;> omega

theorem abs_mk (X s : Nat) (ns : Int) :
    Time.abs ⟨((X * 86400 + s : Nat) : Int) - internalToAbsolute, ns⟩ = X * 86400 + s := by
  simp only [Time.abs, sub_add_cancel, Int.toNat_ofNat]

/-- Reading back an instant built from a year, a month, a day of that month and a second of that
day gives these four. -/
theorem fields_of_parts (Y m d s : Nat) (ns : Int) (hm1 : 1 ≤ m) (hm12 : m ≤ 12) (hd1 : 1 ≤ d)
    (hd : d ≤ daysIn m ((Y : Int) + absoluteZeroYear)) (hs : s < 86400) (t : Time)
    (ht : t = ⟨(((monthStart ((Y : Int) + absoluteZeroYear) m + (d - 1)) * 86400 + s : Nat) : Int)
      - internalToAbsolute, ns⟩) :
    t.Year = (Y : Int) + absoluteZeroYear ∧ t.Month = m ∧ t.Day = d
      ∧ t.Clock = (s / 3600, s % 3600 / 60, s % 60) := by
  have habs : t.abs = (monthStart ((Y : Int) + absoluteZeroYear) m + (d - 1)) * 86400 + s := by
    rw [ht, abs_mk]
  have hY := absYday_eq Y _ s hs (yday_bound ((Y : Int) + absoluteZeroYear) m d hm1 hm12 hd1 hd)
  have hM := monthDay_eq ((Y : Int) + absoluteZeroYear) m d hm1 hm12 hd1 hd
  have hsplit : monthStart ((Y : Int) + absoluteZeroYear) m + (d - 1)
      = daysSinceEpoch ((Y : Int) + absoluteZeroYear) + (daysBefore.getD (m - 1) 0
        + (if isLeap ((Y : Int) + absoluteZeroYear) && decide (3 ≤ m) then 1 else 0) + (d - 1)) := by
    simp only [monthStart]; omega
  have hdate : absDate t.abs = ((Y : Int) + absoluteZeroYear, m, d) := by
    rw [habs, hsplit]
    simp only [absDate, hY, hM]
  refine ⟨?_, ?_, ?_, ?_⟩
  · simp only [Time.Year, hdate]
  · simp only [Time.Month, hdate]
  · simp only [Time.Day, hdate]
  · simp only [Time.Clock, habs]
    have h1 : ((monthStart ((Y : Int) + absoluteZeroYear) m + (d - 1)) * 86400 + s) % 86400 = s := by
      omega
    rw [h1]
    refine Prod.ext ?_ (Prod.ext ?_ ?_) <;> simp only [] <;> omega

/-! ## Parsing and formatting a month and a year -/

theorem digitVal_le (c : Char) (h : isDigit c = true) : digitVal c ≤ 9 := by
  simp [isDigit] at h
  simp [digitVal]
  omega

theorem digitChar_digitVal (c : Char) (h : isDigit c = true) : digitChar (digitVal c) = c := by
  simp [isDigit] at h
  have e : '0'.toNat + digitVal c = c.toNat := by
    simp [digitVal]
    omega
  rw [digitChar, e, Char.ofNat_toNat]

theorem ne_sign_of_isDigit (c : Char) (h : isDigit c = true) : c ≠ '-' ∧ c ≠ '+' := by
  constructor <;> (rintro rfl; revert h; decide)

theorem atoi_four (y1 y2 y3 y4 : Char) (h1 : isDigit y1 = true) (h2 : isDigit y2 = true)
    (h3 : isDigit y3 = true) (h4 : isDigit y4 = true) :
    atoi [y1, y2, y3, y4]
      = some ((1000 * digitVal y1 + 100 * digitVal y2 + 10 * digitVal y3 + digitVal y4 : Nat) : Int) := by
  have b1 := digitVal_le y1 h1
  have b2 := digitVal_le y2 h2
  have b3 := digitVal_le y3 h3
  have b4 := digitVal_le y4 h4
  obtain ⟨n1, n2⟩ := ne_sign_of_isDigit y1 h1
  simp only [atoi, if_neg n1, if_neg n2, leadingInt, h1, h2, h3, h4, Bool.not_true,
    Bool.false_eq_true, if_false]
  have k : (2 : Nat) ^ 63 = 9223372036854775808 := by norm_num
  simp only [k]
  rw [if_neg (by omega), if_neg (by omega), if_neg (by omega), if_neg (by omega),
    if_neg (by omega), if_neg (by omega), if_neg (by omega), if_neg (by omega)]
  simp only [Option.map_some']
  congr 2
  ring

/-- What `time.Parse` makes of a string of two digits, a dash and four digits in the layout
`"01-2006"`, when the first two digits are a month. -/
theorem Parse_monthYear_form (m1 m2 y1 y2 y3 y4 : Char) (hm1 : isDigit m1 = true)
    (hm2 : isDigit m2 = true) (h1 : isDigit y1 = true) (h2 : isDigit y2 = true)
    (h3 : isDigit y3 = true) (h4 : isDigit y4 = true)
    (hlo : 1 ≤ digitVal m1 * 10 + digitVal m2) (hhi : digitVal m1 * 10 + digitVal m2 ≤ 12) :
    Parse layoutMonthYear ⟨[m1, m2, '-', y1, y2, y3, y4]⟩
      = Except.ok (Date
          ((1000 * digitVal y1 + 100 * digitVal y2 + 10 * digitVal y3 + digitVal y4 : Nat) : Int)
          ((digitVal m1 * 10 + digitVal m2 : Nat) : Int) 1 0 0 0 0) := by
  have hd := (daysIn_le (digitVal m1 * 10 + digitVal m2)
    ((1000 * digitVal y1 + 100 * digitVal y2 + 10 * digitVal y3 + digitVal y4 : Nat) : Int)
    hlo hhi).1
  simp only [Parse, layoutMonthYear, parseChunks, getnum, hm1, hm2, h1, Bool.not_true,
    Bool.false_eq_true, if_false, if_true, skip, atoi_four y1 y2 y3 y4 h1 h2 h3 h4,
    List.length_nil, ne_eq, not_true_eq_false]
  rw [if_neg (by omega)]
  have hmneg : ¬ (((digitVal m1 * 10 + digitVal m2 : Nat) : Int) < 0) := by omega
  simp only [if_neg hmneg, Int.toNat_ofNat, Int.reduceNeg, Int.reduceLT, if_true, false_or,
    gt_iff_lt]
  rw [if_neg (by omega)]

theorem getnum_fixed_ok (v rest : List Char) (n : Nat)
    (h : getnum v true = Except.ok (n, rest)) :
    ∃ c0 c1, v = c0 :: c1 :: rest ∧ isDigit c0 = true ∧ isDigit c1 = true
      ∧ n = digitVal c0 * 10 + digitVal c1 := by
  rcases v with _ | ⟨c0, _ | ⟨c1, tl⟩⟩
  · simp [getnum] at h
  · cases h0 : isDigit c0 <;> simp [getnum, h0] at h
  · cases h0 : isDigit c0 <;> cases h1 : isDigit c1 <;> simp [getnum, h0, h1] at h
    exact ⟨c0, c1, by rw [h.2], h0, h1, h.1.symm⟩

theorem skip_dash_ok (v rest : List Char) (h : skip v ['-'] = Except.ok rest) :
    v = '-' :: rest := by
  rcases v with _ | ⟨c, tl⟩
  · simp [skip] at h
  · by_cases hc : c = '-'
    · simp [skip, hc] at h
      rw [hc, h]
    · simp [skip, hc] at h

theorem leadingInt_digits (cs : List Char) (x q : Nat) (h : leadingInt cs x = some q) :
    ∀ c ∈ cs, isDigit c = true := by
  induction cs generalizing x with
  | nil => simp
  | cons c cs ih =>
    cases hc : isDigit c
    · simp [leadingInt, hc] at h
    · simp only [leadingInt, hc, Bool.not_true, Bool.false_eq_true, if_false] at h
      split at h
      · simp at h
      · split at h
        · simp at h
        · intro c' hc'
          rcases List.mem_cons.mp hc' with rfl | hmem
          · exact hc
          · exact ih _ h c' hmem

theorem atoi_digits (c0 c1 c2 c3 : Char) (y : Int) (h0 : isDigit c0 = true)
    (h : atoi [c0, c1, c2, c3] = some y) :
    isDigit c1 = true ∧ isDigit c2 = true ∧ isDigit c3 = true := by
  obtain ⟨n1, n2⟩ := ne_sign_of_isDigit c0 h0
  simp only [atoi, if_neg n1, if_neg n2] at h
  cases hl : leadingInt [c0, c1, c2, c3] 0 with
  | none => simp [hl] at h
  | some q =>
    have := leadingInt_digits _ _ _ hl
    simp at this
    exact ⟨this.2.1, this.2.2.1, this.2.2.2⟩

theorem parseChunks_monthYear_ok (v : List Char) (f0 f : Fields)
    (h : parseChunks layoutMonthYear v f0 = Except.ok f) :
    ∃ m1 m2 y1 y2 y3 y4 : Char, v = [m1, m2, '-', y1, y2, y3, y4]
      ∧ isDigit m1 = true ∧ isDigit m2 = true ∧ isDigit y1 = true ∧ isDigit y2 = true
      ∧ isDigit y3 = true ∧ isDigit y4 = true
      ∧ 1 ≤ digitVal m1 * 10 + digitVal m2 ∧ digitVal m1 * 10 + digitVal m2 ≤ 12 := by
  simp only [layoutMonthYear, parseChunks] at h
  cases hg : getnum v true with
  | error e => simp [hg] at h
  | ok p =>
    obtain ⟨month, value⟩ := p
    obtain ⟨m1, m2, hv, hm1, hm2, hmonth⟩ := getnum_fixed_ok v value month hg
    simp only [hg] at h
    split at h
    · simp at h
    · rename_i hrange
      cases hs : skip value ['-'] with
      | error e => simp [hs] at h
      | ok value2 =>
        have hv2 := skip_dash_ok value value2 hs
        simp only [hs] at h
        rcases value2 with _ | ⟨y1, _ | ⟨y2, _ | ⟨y3, _ | ⟨y4, rest⟩⟩⟩⟩
        · simp at h
        · simp at h
        · simp at h
        · simp at h
        · simp only [] at h
          cases h1 : isDigit y1
          · simp [h1] at h
          · simp only [h1, Bool.not_true, Bool.false_eq_true, if_false] at h
            cases ha : atoi [y1, y2, y3, y4] with
            | none => simp [ha] at h
            | some year =>
              obtain ⟨h2, h3, h4⟩ := atoi_digits y1 y2 y3 y4 year h1 ha
              simp only [ha] at h
              split at h
              · simp at h
              · rename_i hrest
                have hnil : rest = [] := by
                  cases rest with
                  | nil => rfl
                  | cons a l => simp at hrest
                refine ⟨m1, m2, y1, y2, y3, y4, ?_, hm1, hm2, h1, h2, h3, h4, ?_, ?_⟩
                · rw [hv, hv2, hnil]
                · omega
                · omega

/-- A string that `time.Parse` accepts in the layout `"01-2006"` is two digits, a dash and four
digits, the first two being a month. -/
theorem Parse_monthYear_ok (s : String) (t : Time) (h : Parse layoutMonthYear s = Except.ok t) :
    ∃ m1 m2 y1 y2 y3 y4 : Char, s = ⟨[m1, m2, '-', y1, y2, y3, y4]⟩
      ∧ isDigit m1 = true ∧ isDigit m2 = true ∧ isDigit y1 = true ∧ isDigit y2 = true
      ∧ isDigit y3 = true ∧ isDigit y4 = true
      ∧ 1 ≤ digitVal m1 * 10 + digitVal m2 ∧ digitVal m1 * 10 + digitVal m2 ≤ 12 := by
  obtain ⟨v⟩ := s
  simp only [Parse] at h
  cases hp : parseChunks layoutMonthYear v ⟨0, -1, -1⟩ with
  | error e => simp [hp] at h
  | ok f =>
    obtain ⟨m1, m2, y1, y2, y3, y4, hv, rest⟩ := parseChunks_monthYear_ok v _ f hp
    exact ⟨m1, m2, y1, y2, y3, y4, by rw [hv], rest⟩


theorem year_absolute (y : Nat) :
    ((y : Int)) = ((y + 292277022399 : Nat) : Int) + absoluteZeroYear := by
  simp only [absoluteZeroYear]; push_cast; ring

/-- The first instant of a month: its fields read back as year, month, day 1, 00:00:00. -/
theorem first_of_month_fields (y m : Nat) (hm1 : 1 ≤ m) (hm12 : m ≤ 12) :
    (Date y m 1 0 0 0 0).Year = y ∧ (Date y m 1 0 0 0 0).Month = m
      ∧ (Date y m 1 0 0 0 0).Day = 1 ∧ (Date y m 1 0 0 0 0).Clock = (0, 0, 0)
      ∧ (Date y m 1 0 0 0 0).nsec = 0 := by
  have hd := (daysIn_le m (((y + 292277022399 : Nat) : Int) + absoluteZeroYear) hm1 hm12).1
  have h := fields_of_parts (y + 292277022399) m 1 0 0 hm1 hm12 (le_refl 1) hd (by norm_num)
    (Date y m 1 0 0 0 0) (by
      rw [Date_first _ _ hm1 hm12, year_absolute y]
      simp)
  rw [← year_absolute y] at h
  refine ⟨h.1, h.2.1, h.2.2.1, ?_, ?_⟩
  · simpa using h.2.2.2
  · rw [Date_first _ _ hm1 hm12]

theorem Date_next (y m : Nat) (hm1 : 1 ≤ m) (hm12 : m ≤ 12) :
    Date y ((m : Int) + 1) 1 0 0 0 0
      = ⟨((monthStart y m + daysIn m y : Nat) : Int) * 86400 - internalToAbsolute, 0⟩ := by
  by_cases h12 : m = 12
  · have hn : Date y ((m : Int) + 1) 1 0 0 0 0 = Date ((y : Int) + 1) (1 : Nat) 1 0 0 0 0 := by
      subst h12
      have n0 : norm (y : Int) (((12 : Nat) : Int) + 1 - 1) 12 = ((y : Int) + 1, 0) := by
        simp [norm]
      have n1 : norm ((y : Int) + 1) (((1 : Nat) : Int) - 1) 12 = ((y : Int) + 1, 0) := by
        simp [norm]
      unfold Date
      simp only [n0, n1]
    rw [hn, Date_first _ _ (le_refl 1) (by norm_num)]
    have := monthStart_next (y + 292277022399) m hm1 hm12
    rw [if_pos h12, ← year_absolute y] at this
    rw [this]
  · have hn : Date y ((m : Int) + 1) 1 0 0 0 0 = Date y ((m + 1 : Nat) : Int) 1 0 0 0 0 := by
      push_cast; rfl
    rw [hn, Date_first _ _ (by omega) (by omega)]
    have := monthStart_next (y + 292277022399) m hm1 hm12
    rw [if_neg h12, ← year_absolute y] at this
    rw [this]

/-- The last second of a month: one second before the first instant of the next month reads
back as the same year and month, its last day, 23:59:59. -/
theorem end_of_month_fields (y m : Nat) (hm1 : 1 ≤ m) (hm12 : m ≤ 12) :
    ((Date y ((m : Int) + 1) 1 0 0 0 0).Add (-Second)).Year = y
      ∧ ((Date y ((m : Int) + 1) 1 0 0 0 0).Add (-Second)).Month = m
      ∧ ((Date y ((m : Int) + 1) 1 0 0 0 0).Add (-Second)).Day = daysIn m y
      ∧ ((Date y ((m : Int) + 1) 1 0 0 0 0).Add (-Second)).Clock = (23, 59, 59)
      ∧ ((Date y ((m : Int) + 1) 1 0 0 0 0).Add (-Second)).nsec = 0 := by
  have hdl := daysIn_le m (y : Int) hm1 hm12
  have hadd : (Date y ((m : Int) + 1) 1 0 0 0 0).Add (-Second)
      = ⟨(((monthStart y m + (daysIn m y - 1)) * 86400 + 86399 : Nat) : Int)
          - internalToAbsolute, 0⟩ := by
    rw [Date_next y m hm1 hm12]
    have e1 : Int.tdiv (-Second) 1000000000 = -1 := by decide
    have e2 : Int.tmod (-Second) 1000000000 = 0 := by decide
    simp only [Time.Add, e1, e2, add_zero]
    rw [if_neg (by norm_num), if_neg (by norm_num)]
    refine congrArg (fun x => Time.mk x 0) ?_
    have h1 := hdl.1
    generalize monthStart (y : Int) m = X
    generalize daysIn m (y : Int) = k at h1
    generalize internalToAbsolute = c
    omega
  have h := fields_of_parts (y + 292277022399) m (daysIn m y) 86399 0 hm1 hm12
    hdl.1 (by rw [← year_absolute y]) (by norm_num)
    ((Date y ((m : Int) + 1) 1 0 0 0 0).Add (-Second)) (by
      rw [hadd, ← year_absolute y])
  rw [← year_absolute y] at h
  refine ⟨h.1, h.2.1, h.2.2.1, ?_, ?_⟩
  · simpa using h.2.2.2
  · rw [hadd]

end time

open models (MonthYear Subscription)
open uuid (UUID)
open time

theorem trimQuote_quoted (m1 y4 : Char) (mid : List Char) (hm : isDigit m1 = true)
    (hy : isDigit y4 = true) :
    strings.TrimQuote ⟨'"' :: m1 :: (mid ++ [y4, '"'])⟩ = ⟨m1 :: (mid ++ [y4])⟩ := by
  have n1 : (m1 == '"') = false := by
    cases h : (m1 == '"')
    · rfl
    · rw [beq_iff_eq] at h; subst h; revert hm; decide
  have n4 : (y4 == '"') = false := by
    cases h : (y4 == '"')
    · rfl
    · rw [beq_iff_eq] at h; subst h; revert hy; decide
  simp only [strings.TrimQuote, strings.trimBoth]
  congr 1
  simp [List.dropWhile, n1, n4]

theorem appendInt_month (m1 m2 : Char) (h1 : isDigit m1 = true) (h2 : isDigit m2 = true) :
    appendInt ((digitVal m1 * 10 + digitVal m2 : Nat) : Int) 2 = [m1, m2] := by
  have b1 := digitVal_le m1 h1
  have b2 := digitVal_le m2 h2
  have hlt : ¬ (((digitVal m1 * 10 + digitVal m2 : Nat) : Int) < 0) := by omega
  simp only [appendInt, Int.natAbs_ofNat, if_neg hlt, List.nil_append]
  rw [if_pos ⟨trivial, by omega⟩]
  have e1 : (digitVal m1 * 10 + digitVal m2) / 10 = digitVal m1 := by omega
  have e2 : (digitVal m1 * 10 + digitVal m2) % 10 = digitVal m2 := by omega
  rw [e1, e2, digitChar_digitVal m1 h1, digitChar_digitVal m2 h2]

theorem appendInt_year (y1 y2 y3 y4 : Char) (h1 : isDigit y1 = true) (h2 : isDigit y2 = true)
    (h3 : isDigit y3 = true) (h4 : isDigit y4 = true) :
    appendInt ((1000 * digitVal y1 + 100 * digitVal y2 + 10 * digitVal y3 + digitVal y4 : Nat) : Int)
      4 = [y1, y2, y3, y4] := by
  have b1 := digitVal_le y1 h1
  have b2 := digitVal_le y2 h2
  have b3 := digitVal_le y3 h3
  have b4 := digitVal_le y4 h4
  have hlt : ¬ (((1000 * digitVal y1 + 100 * digitVal y2 + 10 * digitVal y3 + digitVal y4 : Nat)
      : Int) < 0) := by omega
  simp only [appendInt, Int.natAbs_ofNat, if_neg hlt, List.nil_append]
  rw [if_neg (by simp), if_pos ⟨trivial, by omega⟩]
  have e1 : (1000 * digitVal y1 + 100 * digitVal y2 + 10 * digitVal y3 + digitVal y4) / 100 / 10
      = digitVal y1 := by omega
  have e2 : (1000 * digitVal y1 + 100 * digitVal y2 + 10 * digitVal y3 + digitVal y4) / 100 % 10
      = digitVal y2 := by omega
  have e3 : (1000 * digitVal y1 + 100 * digitVal y2 + 10 * digitVal y3 + digitVal y4) % 100 / 10
      = digitVal y3 := by omega
  have e4 : (1000 * digitVal y1 + 100 * digitVal y2 + 10 * digitVal y3 + digitVal y4) % 100 % 10
      = digitVal y4 := by omega
  rw [e1, e2, e3, e4, digitChar_digitVal y1 h1, digitChar_digitVal y2 h2,
    digitChar_digitVal y3 h3, digitChar_digitVal y4 h4]

namespace time

theorem Date_month13 (y : Int) : Date y 13 1 0 0 0 0 = Date (y + 1) 1 1 0 0 0 0 := by
  have n0 : norm y (13 - 1) 12 = (y + 1, 0) := by simp [norm]
  have n1 : norm (y + 1) (1 - 1) 12 = (y + 1, 0) := by simp [norm]
  unfold Date
  simp only [n0, n1]

/-- What `time.Parse` returns in the layout `"01-2006"`: the first instant of the month and the
year the string spells. -/
theorem Parse_monthYear_date (s : String) (t : Time)
    (h : Parse layoutMonthYear s = Except.ok t) :
    ∃ m1 m2 y1 y2 y3 y4 : Char, s = ⟨[m1, m2, '-', y1, y2, y3, y4]⟩
      ∧ isDigit m1 = true ∧ isDigit m2 = true ∧ isDigit y1 = true ∧ isDigit y2 = true
      ∧ isDigit y3 = true ∧ isDigit y4 = true
      ∧ 1 ≤ digitVal m1 * 10 + digitVal m2 ∧ digitVal m1 * 10 + digitVal m2 ≤ 12
      ∧ t = Date ((1000 * digitVal y1 + 100 * digitVal y2 + 10 * digitVal y3 + digitVal y4 : Nat)
            : Int) ((digitVal m1 * 10 + digitVal m2 : Nat) : Int) 1 0 0 0 0 := by
  obtain ⟨m1, m2, y1, y2, y3, y4, hs, hm1, hm2, h1, h2, h3, h4, hlo, hhi⟩ :=
    Parse_monthYear_ok s t h
  refine ⟨m1, m2, y1, y2, y3, y4, hs, hm1, hm2, h1, h2, h3, h4, hlo, hhi, ?_⟩
  rw [hs, Parse_monthYear_form m1 m2 y1 y2 y3 y4 hm1 hm2 h1 h2 h3 h4 hlo hhi] at h
  exact (Except.ok.inj h).symm

end time

theorem startDatePreds_form (y m : Nat) (s : String) (hm1 : 1 ≤ m) (hm12 : m ≤ 12)
    (hne : s ≠ "") (h : Parse layoutMonthYear s = Except.ok (Date y m 1 0 0 0 0)) :
    Repository.startDatePreds s
      = [Pred.GtOrEq "start_date" (Value.time (Date y m 1 0 0 0 0))] := by
  have hf := first_of_month_fields y m hm1 hm12
  simp only [Repository.startDatePreds, if_pos hne, h, hf.1, hf.2.1]

theorem endDatePreds_form (y m : Nat) (s : String) (hm1 : 1 ≤ m) (hm12 : m ≤ 12)
    (hne : s ≠ "") (h : Parse layoutMonthYear s = Except.ok (Date y m 1 0 0 0 0)) :
    Repository.endDatePreds s
      = [Pred.LtOrEq "end_date"
          (Value.time ((Date y ((m : Int) + 1) 1 0 0 0 0).Add (-Second)))] := by
  have hf := first_of_month_fields y m hm1 hm12
  simp only [Repository.endDatePreds, if_pos hne, h, hf.1, hf.2.1]

theorem form_ne_empty (a b c d e f g : Char) : (⟨[a, b, c, d, e, f, g]⟩ : String) ≠ "" := by
  intro h
  have := congrArg String.length h
  simp [String.length] at this

/-- A string in the form YYYY-MM is rejected by the layout `"01-2006"`. -/
theorem Parse_monthYear_yearMonth (y1 y2 y3 y4 m1 m2 : Char) (h3 : isDigit y3 = true) (t : Time) :
    Parse layoutMonthYear ⟨[y1, y2, y3, y4, '-', m1, m2]⟩ ≠ Except.ok t := by
  intro h
  obtain ⟨a, b, c, d, e, f, hs, -⟩ := Parse_monthYear_ok _ t h
  have hl := congrArg String.data hs
  simp only [List.cons.injEq] at hl
  have : y3 = '-' := hl.2.2.1
  subst this
  revert h3
  decide

theorem startDatePreds_bad (s : String) (h : ∀ t, Parse layoutMonthYear s ≠ Except.ok t) :
    Repository.startDatePreds s = [] := by
  simp only [Repository.startDatePreds]
  split
  · cases hp : Parse layoutMonthYear s with
    | error e => rfl
    | ok t => exact absurd hp (h t)
  · rfl

theorem endDatePreds_bad (s : String) (h : ∀ t, Parse layoutMonthYear s ≠ Except.ok t) :
    Repository.endDatePreds s = [] := by
  simp only [Repository.endDatePreds]
  split
  · cases hp : Parse layoutMonthYear s with
    | error e => rfl
    | ok t => exact absurd hp (h t)
  · rfl

theorem foldl_sets (updates acc : FieldMap) :
    updates.foldl (fun builder e => builder ++ [(e.1, e.2)]) acc = acc ++ updates := by
  induction updates generalizing acc with
  | nil => simp
  | cons e es ih => simp [List.foldl, ih]

theorem Repository.updateQuery_eq (id : UUID) (updates : FieldMap) :
    Repository.updateQuery id updates
      = Statement.Update "subscriptions" updates [Pred.Eq "id" (Value.uuid id)] returning := by
  have hf := foldl_sets updates []
  simp only [List.nil_append] at hf
  simp only [Repository.updateQuery, hf]

theorem Repository.UpdateSubscription_log {σ : Type} (pool : Pool σ) (id : UUID)
    (updates : FieldMap) (db : Db σ) (hne : updates ≠ []) :
    (Repository.UpdateSubscription pool id updates db).2.log
      = db.log ++ [Repository.updateQuery id updates] := by
  have hlen : ¬ updates.length = 0 := by
    intro h; exact hne (List.length_eq_zero.mp h)
  simp only [Repository.UpdateSubscription, if_neg hlen]
  rcases pool.QueryRow _ db.state with ⟨r, st⟩
  rcases r with err | row
  · cases err <;> rfl
  · rfl

theorem Repository.CreateSubscription_log {σ : Type} (pool : Pool σ) (sub : Subscription)
    (db : Db σ) :
    (Repository.CreateSubscription pool sub db).2.log
      = db.log ++ [Repository.insertQuery sub] := by
  simp only [Repository.CreateSubscription]
  rcases pool.QueryRow _ db.state with ⟨r, st⟩
  rcases r with err | row
  · cases err
    · rfl
    · simp only []
      split <;> rfl
    · rfl
  · rfl

theorem FieldMap.set_keys (m : FieldMap) (k : String) (v v0 : Value)
    (h : m.lookup k = some v0) : (m.set k v).map Prod.fst = m.map Prod.fst := by
  simp only [FieldMap.set, h, Option.isSome_some, if_true, List.map_map]
  apply List.map_congr_left
  intro e _
  simp only [Function.comp]
  split
  · rename_i he; exact he.symm
  · rfl

theorem FieldMap.set_ne_nil (m : FieldMap) (k : String) (v : Value) (h : m ≠ []) :
    m.set k v ≠ [] := by
  simp only [FieldMap.set]
  split
  · intro hm; exact h (List.map_eq_nil_iff.mp hm)
  · simp

theorem Handler.parsedStartDate_keys (updates checked : FieldMap)
    (h : Handler.parsedStartDate updates = some checked) :
    checked.map Prod.fst = updates.map Prod.fst ∧ (updates ≠ [] → checked ≠ []) := by
  simp only [Handler.parsedStartDate] at h
  split at h
  · rename_i t hl
    split at h
    · cases h
    · split at h
      · cases h
      · cases h
        exact ⟨FieldMap.set_keys _ _ _ _ hl, FieldMap.set_ne_nil _ _ _⟩
  · cases h
    exact ⟨rfl, id⟩

theorem uuid.version_byte_ne_zero : ∀ b : Fin 256, (b.val &&& 0x0f) ||| 0x40 ≠ 0 := by
  decide

theorem uuid.New_ne_Nil (rnd : Fin 16 → Fin 256) : uuid.New rnd ≠ uuid.Nil := by
  intro h
  have hb := congrArg (fun u => u.bytes.getD 6 1) h
  simp [uuid.New, uuid.Nil, List.finRange, List.getD] at hb
  exact uuid.version_byte_ne_zero _ hb

theorem uuid.Parse_empty : uuid.Parse "" = none := by decide

theorem Handler.update_snd {σ : Type} (r : Except GoError Subscription × Db σ) :
    (match r with
      | (Except.error err, db) =>
        (responser.SendErr http.StatusInternalServerError err.Error, db)
      | (Except.ok updatedSubscription, db) =>
        (responser.SendOK http.StatusOK (Payload.subscription updatedSubscription), db)).2
      = r.2 := by
  rcases r with ⟨r, d⟩
  cases r <;> rfl

/-- An update request that passes the checks of the handler is answered from the outcome of the
business logic on the map the `start_date` step returns. -/
theorem Handler.UpdateSubscription_reach {σ : Type} (pool : Pool σ) (idStr : String) (id : UUID)
    (updates checked : FieldMap) (db : Db σ) (hp : uuid.Parse idStr = some id)
    (hne : updates ≠ []) (hc : Handler.parsedStartDate updates = some checked) :
    Handler.UpdateSubscription pool (some idStr) (Except.ok updates) db
      = match UseCase.UpdateSubscription pool id checked db with
        | (Except.error err, db) =>
          (responser.SendErr http.StatusInternalServerError err.Error, db)
        | (Except.ok updatedSubscription, db) =>
          (responser.SendOK http.StatusOK (Payload.subscription updatedSubscription), db) := by
  have hs : idStr ≠ "" := by
    intro h; rw [h, uuid.Parse_empty] at hp; cases hp
  have hlen : ¬ updates.length = 0 := by
    intro h; exact hne (List.length_eq_zero.mp h)
  simp only [Handler.UpdateSubscription, if_neg hs, hp, reader.ReadFieldMap, if_neg hlen, hc]

/-- An update request that fails a check of the handler is answered 400 and leaves the store
as it was. -/
theorem Handler.UpdateSubscription_invalid {σ : Type} (pool : Pool σ) (idVar : Option String)
    (body : Except String FieldMap) (db : Db σ)
    (h : idVar = none ∨ idVar = some "" ∨ (∃ s, idVar = some s ∧ uuid.Parse s = none)
      ∨ (∃ e, body = Except.error e) ∨ body = Except.ok []
      ∨ (∃ u, body = Except.ok u ∧ Handler.parsedStartDate u = none)) :
    (Handler.UpdateSubscription pool idVar body db).1.status = http.StatusBadRequest
      ∧ (Handler.UpdateSubscription pool idVar body db).2 = db := by
  unfold Handler.UpdateSubscription
  rcases idVar with _ | idStr
  · exact ⟨rfl, rfl⟩
  · simp only []
    by_cases hs : idStr = ""
    · rw [if_pos hs]; exact ⟨rfl, rfl⟩
    · rw [if_neg hs]
      cases hp : uuid.Parse idStr with
      | none => exact ⟨rfl, rfl⟩
      | some id =>
        simp only [reader.ReadFieldMap]
        rcases body with e | updates
        · exact ⟨rfl, rfl⟩
        · simp only []
          by_cases hlen : updates.length = 0
          · rw [if_pos hlen]; exact ⟨rfl, rfl⟩
          · rw [if_neg hlen]
            cases hc : Handler.parsedStartDate updates with
            | none => exact ⟨rfl, rfl⟩
            | some checked =>
              exfalso
              rcases h with h | h | ⟨s, h, h2⟩ | ⟨e, h⟩ | h | ⟨u, h, h2⟩
              · cases h
              · cases h; exact hs rfl
              · cases h; rw [hp] at h2; cases h2
              · cases h
              · cases h; exact hlen rfl
              · cases h; rw [hc] at h2; cases h2

theorem UseCase.UpdateSubscription_log_cases {σ : Type} (pool : Pool σ) (id : UUID)
    (updates : FieldMap) (db : Db σ) :
    (UseCase.UpdateSubscription pool id updates db).2.log = db.log
      ∨ (updates ≠ [] ∧ (UseCase.UpdateSubscription pool id updates db).2.log
          = db.log ++ [Repository.updateQuery id updates]) := by
  unfold UseCase.UpdateSubscription
  split
  · left; rfl
  · split
    · left; rfl
    · rename_i hlen
      simp only []
      split
      · left; rfl
      · right
        have hne : updates ≠ [] := by
          intro h; rw [h] at hlen; exact hlen rfl
        exact ⟨hne, Repository.UpdateSubscription_log pool id updates db hne⟩

theorem FieldMap.lookup_set (m : FieldMap) (k : String) (v v0 : Value)
    (h : m.lookup k = some v0) : (m.set k v).lookup k = some v := by
  simp only [FieldMap.set, h, Option.isSome_some, if_true]
  induction m with
  | nil => simp [List.lookup] at h
  | cons e tl ih =>
    obtain ⟨k', v'⟩ := e
    rw [List.map_cons]
    by_cases hk : k' = k
    · rw [if_pos hk, List.lookup_cons, beq_self_eq_true]
    · have hk2 : (k == k') = false := by
        rw [beq_eq_false_iff_ne]; exact fun h => hk h.symm
      rw [List.lookup_cons, hk2] at h
      rw [if_neg hk, List.lookup_cons, hk2]
      exact ih h

/-- After the `start_date` step of the handler on a body decoded from JSON (which holds no
time value), a time under `start_date` is not zero. -/
theorem Handler.parsedStartDate_nonzero (updates checked : FieldMap)
    (hjson : ∀ t, updates.lookup "start_date" ≠ some (Value.time t))
    (h : Handler.parsedStartDate updates = some checked) (t : Time)
    (ht : checked.lookup "start_date" = some (Value.time t)) : t.IsZero = false := by
  simp only [Handler.parsedStartDate] at h
  split at h
  · rename_i s hl
    split at h
    · cases h
    · rename_i parsedTime hp
      split at h
      · cases h
      · rename_i hz
        cases h
        rw [FieldMap.lookup_set _ _ _ _ hl] at ht
        cases ht
        simpa using hz
  · cases h
    exact absurd ht (hjson t)

theorem UseCase.UpdateSubscription_delegates {σ : Type} (pool : Pool σ) (id : UUID)
    (updates : FieldMap) (db : Db σ) (hid : id ≠ uuid.Nil) (hne : updates ≠ [])
    (hz : ∀ t, updates.lookup "start_date" = some (Value.time t) → t.IsZero = false) :
    UseCase.UpdateSubscription pool id updates db
      = Repository.UpdateSubscription pool id updates db := by
  have hlen : ¬ updates.length = 0 := by
    intro h; exact hne (List.length_eq_zero.mp h)
  simp only [UseCase.UpdateSubscription, if_neg hid, if_neg hlen]
  split
  · rename_i hzero
    split at hzero
    · rename_i t hl
      rw [hz t hl] at hzero
      cases hzero
    · cases hzero
  · rfl

theorem Handler.GetSubscriptionByID_invalid {σ : Type} (pool : Pool σ) (idVar : Option String)
    (db : Db σ) (h : uuid.Parse (idVar.getD "") = none) :
    Handler.GetSubscriptionByID pool idVar db
      = (responser.SendErr http.StatusBadRequest "invalid id format", db) := by
  simp only [Handler.GetSubscriptionByID, h]

theorem Handler.DeleteSubscription_invalid {σ : Type} (pool : Pool σ) (idVar : Option String)
    (db : Db σ) (h : uuid.Parse (idVar.getD "") = none) :
    Handler.DeleteSubscription pool idVar db
      = (responser.SendErr http.StatusBadRequest "invalid id format", db) := by
  simp only [Handler.DeleteSubscription, h]

theorem Handler.CreateSubscription_invalid {σ : Type} (pool : Pool σ) (rnd rnd2 : Fin 16 → Fin 256)
    (b : reader.CreateBody) (db : Db σ)
    (h : b.service_name = "" ∨ b.start_date = MonthYear.mk ⟨0, 0⟩ ∨ b.price = none
      ∨ b.user_id = uuid.Nil) :
    (Handler.CreateSubscription pool rnd rnd2 (Except.ok b) db).1.status = http.StatusBadRequest
      ∧ (Handler.CreateSubscription pool rnd rnd2 (Except.ok b) db).2 = db := by
  simp only [Handler.CreateSubscription, reader.ReadSubscription]
  split
  · exact ⟨rfl, rfl⟩
  · split
    · exact ⟨rfl, rfl⟩
    · split
      · exact ⟨rfl, rfl⟩
      · split
        · exact ⟨rfl, rfl⟩
        · rename_i h1 h2 h3 h4
          exfalso
          rcases h with h | h | h | h
          · exact h1 h
          · exact h2 h
          · exact h3 h
          · exact h4 h

/-! ## The update body, the create request and the user-id filter -/

namespace time

/-- What `time.Parse` makes of a string of four digits, a dash and two digits in the layout
`"2006-01"`, when the last two digits are a month. -/
theorem Parse_yearMonth_form (y1 y2 y3 y4 m1 m2 : Char) (h1 : isDigit y1 = true)
    (h2 : isDigit y2 = true) (h3 : isDigit y3 = true) (h4 : isDigit y4 = true)
    (hm1 : isDigit m1 = true) (hm2 : isDigit m2 = true)
    (hlo : 1 ≤ digitVal m1 * 10 + digitVal m2) (hhi : digitVal m1 * 10 + digitVal m2 ≤ 12) :
    Parse layoutYearMonth ⟨[y1, y2, y3, y4, '-', m1, m2]⟩
      = Except.ok (Date
          ((1000 * digitVal y1 + 100 * digitVal y2 + 10 * digitVal y3 + digitVal y4 : Nat) : Int)
          ((digitVal m1 * 10 + digitVal m2 : Nat) : Int) 1 0 0 0 0) := by
  have hd := (daysIn_le (digitVal m1 * 10 + digitVal m2)
    ((1000 * digitVal y1 + 100 * digitVal y2 + 10 * digitVal y3 + digitVal y4 : Nat) : Int)
    hlo hhi).1
  simp only [Parse, layoutYearMonth, parseChunks, getnum, hm1, hm2, h1, Bool.not_true,
    Bool.false_eq_true, if_false, if_true, skip, atoi_four y1 y2 y3 y4 h1 h2 h3 h4,
    List.length_nil, ne_eq, not_true_eq_false]
  rw [if_neg (by omega)]
  have hmneg : ¬ (((digitVal m1 * 10 + digitVal m2 : Nat) : Int) < 0) := by omega
  simp only [if_neg hmneg, Int.toNat_ofNat, Int.reduceNeg, Int.reduceLT, if_true, false_or,
    gt_iff_lt]
  rw [if_neg (by omega)]

theorem parseChunks_yearMonth_ok (v : List Char) (f0 f : Fields)
    (h : parseChunks layoutYearMonth v f0 = Except.ok f) :
    ∃ y1 y2 y3 y4 m1 m2 : Char, v = [y1, y2, y3, y4, '-', m1, m2]
      ∧ isDigit y1 = true ∧ isDigit y2 = true ∧ isDigit y3 = true ∧ isDigit y4 = true
      ∧ isDigit m1 = true ∧ isDigit m2 = true
      ∧ 1 ≤ digitVal m1 * 10 + digitVal m2 ∧ digitVal m1 * 10 + digitVal m2 ≤ 12 := by
  simp only [layoutYearMonth, parseChunks] at h
  rcases v with _ | ⟨y1, _ | ⟨y2, _ | ⟨y3, _ | ⟨y4, rest⟩⟩⟩⟩
  · simp at h
  · simp at h
  · simp at h
  · simp at h
  · simp only [] at h
    cases h1 : isDigit y1
    · simp [h1] at h
    · simp only [h1, Bool.not_true, Bool.false_eq_true, if_false] at h
      cases ha : atoi [y1, y2, y3, y4] with
      | none => simp [ha] at h
      | some year =>
        obtain ⟨h2, h3, h4⟩ := atoi_digits y1 y2 y3 y4 year h1 ha
        simp only [ha] at h
        cases hs : skip rest ['-'] with
        | error e => simp [hs] at h
        | ok value =>
          have hv := skip_dash_ok rest value hs
          simp only [hs] at h
          cases hg : getnum value true with
          | error e => simp [hg] at h
          | ok p =>
            obtain ⟨month, value2⟩ := p
            obtain ⟨m1, m2, hv2, hm1, hm2, hmonth⟩ := getnum_fixed_ok value value2 month hg
            simp only [hg] at h
            split at h
            · simp at h
            · rename_i hrange
              split at h
              · simp at h
              · rename_i hrest
                have hnil : value2 = [] := by
                  cases value2 with
                  | nil => rfl
                  | cons a l => simp at hrest
                refine ⟨y1, y2, y3, y4, m1, m2, ?_, h1, h2, h3, h4, hm1, hm2, ?_, ?_⟩
                · rw [hv, hv2, hnil]
                · omega
                · omega

/-- What `time.Parse` returns in the layout `"2006-01"`: the first instant of the month and the
year the string spells. -/
theorem Parse_yearMonth_date (s : String) (t : Time)
    (h : Parse layoutYearMonth s = Except.ok t) :
    ∃ y1 y2 y3 y4 m1 m2 : Char, s = ⟨[y1, y2, y3, y4, '-', m1, m2]⟩
      ∧ isDigit y1 = true ∧ isDigit y2 = true ∧ isDigit y3 = true ∧ isDigit y4 = true
      ∧ isDigit m1 = true ∧ isDigit m2 = true
      ∧ 1 ≤ digitVal m1 * 10 + digitVal m2 ∧ digitVal m1 * 10 + digitVal m2 ≤ 12
      ∧ t = Date ((1000 * digitVal y1 + 100 * digitVal y2 + 10 * digitVal y3 + digitVal y4 : Nat)
            : Int) ((digitVal m1 * 10 + digitVal m2 : Nat) : Int) 1 0 0 0 0 := by
  obtain ⟨v⟩ := s
  have h0 := h
  simp only [Parse] at h
  cases hp : parseChunks layoutYearMonth v ⟨0, -1, -1⟩ with
  | error e => simp [hp] at h
  | ok f =>
    obtain ⟨y1, y2, y3, y4, m1, m2, hv, h1, h2, h3, h4, hm1, hm2, hlo, hhi⟩ :=
      parseChunks_yearMonth_ok v _ f hp
    refine ⟨y1, y2, y3, y4, m1, m2, by rw [hv], h1, h2, h3, h4, hm1, hm2, hlo, hhi, ?_⟩
    subst hv
    rw [Parse_yearMonth_form y1 y2 y3 y4 m1 m2 h1 h2 h3 h4 hm1 hm2 hlo hhi] at h0
    exact (Except.ok.inj h0).symm

/-- A string in the form MM-YYYY is rejected by the layout `"2006-01"`. -/
theorem Parse_yearMonth_monthYear (m1 m2 y1 y2 y3 y4 : Char) (t : Time) :
    Parse layoutYearMonth ⟨[m1, m2, '-', y1, y2, y3, y4]⟩ ≠ Except.ok t := by
  intro h
  obtain ⟨a, b, c, d, e, f, hs, -, -, h3, -⟩ := Parse_yearMonth_date _ t h
  have hl := congrArg String.data hs
  simp only [List.cons.injEq] at hl
  have : '-' = c := hl.2.2.1
  subst this
  revert h3
  decide

end time

theorem FieldMap.set_eq_map (m : FieldMap) (k : String) (v v0 : Value)
    (h : m.lookup k = some v0) :
    m.set k v = m.map fun e => if e.1 = k then (k, v) else e := by
  simp only [FieldMap.set, h, Option.isSome_some, if_true]

theorem FieldMap.lookup_map_other (m : FieldMap) (k k2 : String) (v : Value) (hk : k2 ≠ k) :
    (m.map fun e => if e.1 = k then (k, v) else e).lookup k2 = m.lookup k2 := by
  induction m with
  | nil => rfl
  | cons e tl ih =>
    obtain ⟨k', v'⟩ := e
    rw [List.map_cons]
    by_cases hk' : k' = k
    · have hb : (k2 == k) = false := by rw [beq_eq_false_iff_ne]; exact hk
      have hb' : (k2 == k') = false := by rw [hk']; exact hb
      rw [if_pos hk', List.lookup_cons, List.lookup_cons, hb, hb']
      exact ih
    · rw [if_neg hk', List.lookup_cons, List.lookup_cons]
      cases (k2 == k')
      · exact ih
      · rfl

theorem lookup_ne_nil (m : FieldMap) (k : String) (v : Value) (h : m.lookup k = some v) :
    m ≠ [] := by
  intro hm
  rw [hm] at h
  cases h

theorem Handler.create_snd {σ : Type} (r : Except GoError Subscription × Db σ) :
    (match r with
      | (Except.error err, db) =>
        (responser.SendErr http.StatusInternalServerError err.Error, db)
      | (Except.ok createdSubscription, db) =>
        (responser.SendOK http.StatusCreated (Payload.subscription createdSubscription), db)).2
      = r.2 := by
  rcases r with ⟨r, d⟩
  cases r <;> rfl

/-- A create request that passes the checks of the handler is answered from the outcome of the
business logic on the decoded record. -/
theorem Handler.CreateSubscription_reach {σ : Type} (pool : Pool σ) (rnd rnd2 : Fin 16 → Fin 256)
    (b : reader.CreateBody) (db : Db σ) (h1 : b.service_name ≠ "")
    (h2 : b.start_date ≠ MonthYear.mk ⟨0, 0⟩) (h3 : b.price ≠ none) (h4 : b.user_id ≠ uuid.Nil) :
    Handler.CreateSubscription pool rnd rnd2 (Except.ok b) db
      = match UseCase.CreateSubscription pool rnd2
          ⟨b.id.getD (uuid.New rnd), b.service_name, b.price, b.user_id, b.start_date,
            b.end_date⟩ db with
        | (Except.error err, db) =>
          (responser.SendErr http.StatusInternalServerError err.Error, db)
        | (Except.ok createdSubscription, db) =>
          (responser.SendOK http.StatusCreated (Payload.subscription createdSubscription), db) := by
  simp only [Handler.CreateSubscription, reader.ReadSubscription, if_neg h1, if_neg h2, if_neg h3,
    if_neg h4]

theorem UseCase.CreateSubscription_delegates {σ : Type} (pool : Pool σ)
    (rnd : Fin 16 → Fin 256) (sub : Subscription) (db : Db σ)
    (h : sub.StartDate ≠ MonthYear.mk ⟨0, 0⟩) :
    UseCase.CreateSubscription pool rnd sub db
      = Repository.CreateSubscription pool
          { sub with ID := if sub.ID = uuid.Nil then uuid.New rnd else sub.ID } db := by
  by_cases hid : sub.ID = uuid.Nil
  · simp only [UseCase.CreateSubscription, if_pos hid, h, if_false]
  · simp only [UseCase.CreateSubscription, if_neg hid, h, if_false]

theorem Repository.validIDs_fold (pieces : List String) (acc : List UUID) :
    pieces.foldl
        (fun validIDs idStr =>
          let idStr := strings.TrimSpace idStr
          if idStr = "" then validIDs
          else match uuid.Parse idStr with
            | none => validIDs
            | some id => validIDs ++ [id])
        acc
      = acc ++ (pieces.map strings.TrimSpace).filterMap uuid.Parse := by
  induction pieces generalizing acc with
  | nil => simp
  | cons p ps ih =>
    rw [List.foldl_cons, ih, List.map_cons, List.filterMap_cons]
    by_cases he : strings.TrimSpace p = ""
    · simp only [he, uuid.Parse_empty, if_true]
    · simp only [if_neg he]
      cases hp : uuid.Parse (strings.TrimSpace p) with
      | none => rfl
      | some id => simp only [List.append_assoc, List.singleton_append]

theorem Repository.validIDs_eq_spec (usersIds : String) :
    Repository.validIDs usersIds = Repository.specUserIDs usersIds := by
  have h := Repository.validIDs_fold (strings.SplitComma usersIds) []
  rw [List.nil_append] at h
  exact h

theorem strings.splitOnChar_ne_nil (sep : Char) (xs : List Char) :
    strings.splitOnChar sep xs ≠ [] := by
  induction xs with
  | nil => simp [strings.splitOnChar]
  | cons c cs ih =>
    simp only [strings.splitOnChar]
    split
    · simp
    · split
      · simp
      · simp

theorem strings.splitOnChar_cons (sep c : Char) (cs : List Char) :
    strings.splitOnChar sep (c :: cs)
      = if c = sep then [] :: strings.splitOnChar sep cs
        else match strings.splitOnChar sep cs with
          | [] => [[c]]
          | piece :: pieces => (c :: piece) :: pieces := rfl

theorem strings.splitOnChar_append (sep : Char) (xs ys : List Char) :
    strings.splitOnChar sep (xs ++ sep :: ys)
      = strings.splitOnChar sep xs ++ strings.splitOnChar sep ys := by
  induction xs with
  | nil =>
    rw [List.nil_append, strings.splitOnChar_cons, if_pos rfl]
    rfl
  | cons c cs ih =>
    rw [List.cons_append, strings.splitOnChar_cons, strings.splitOnChar_cons sep c cs, ih]
    by_cases hc : c = sep
    · rw [if_pos hc, if_pos hc]
      rfl
    · rw [if_neg hc, if_neg hc]
      cases hs : strings.splitOnChar sep cs with
      | nil => exact absurd hs (strings.splitOnChar_ne_nil sep cs)
      | cons p ps => rfl

theorem strings.splitOnChar_none (sep : Char) (xs : List Char) (h : sep ∉ xs) :
    strings.splitOnChar sep xs = [xs] := by
  induction xs with
  | nil => rfl
  | cons c cs ih =>
    have hc : c ≠ sep := fun e => h (e ▸ List.mem_cons_self _ _)
    have hcs : sep ∉ cs := fun e => h (List.mem_cons_of_mem _ e)
    simp only [strings.splitOnChar, if_neg hc, ih hcs]

theorem strings.SplitComma_append (a b : String) :
    strings.SplitComma (a ++ "," ++ b) = strings.SplitComma a ++ strings.SplitComma b := by
  have h : (a ++ "," ++ b).data = a.data ++ ',' :: b.data := by
    simp [String.data_append]
  simp only [strings.SplitComma, h, strings.splitOnChar_append, List.map_append]

theorem strings.SplitComma_none (s : String) (h : ',' ∉ s.data) :
    strings.SplitComma s = [s] := by
  simp only [strings.SplitComma, strings.splitOnChar_none _ _ h, List.map_cons, List.map_nil]

theorem filterMap_all_none {α β : Type} (f : α → Option β) (l : List α)
    (h : ∀ x ∈ l, f x = none) : l.filterMap f = [] := by
  induction l with
  | nil => rfl
  | cons x xs ih =>
    rw [List.filterMap_cons, h x (List.mem_cons_self _ _)]
    exact ih fun y hy => h y (List.mem_cons_of_mem _ hy)

theorem Repository.usersPreds_eq_spec (usersIds : String) :
    Repository.usersPreds usersIds
      = if Repository.specUserIDs usersIds = [] then []
        else [Pred.Eq "user_id" (Value.uuids (Repository.specUserIDs usersIds))] := by
  by_cases he : usersIds = ""
  · subst he
    decide
  · simp only [Repository.usersPreds, ne_eq, he, not_false_eq_true, if_true,
      Repository.validIDs_eq_spec]
    cases hs : Repository.specUserIDs usersIds with
    | nil => simp
    | cons x xs => simp

theorem Repository.GetSumSubscriptions_ok {σ : Type} (pool : Pool σ)
    (startDate endDate name usersIds : String) (db : Db σ) (v : Option Int)
    (h : (pool.QueryRowSum (Repository.sumQuery startDate endDate name usersIds) db.state).1
      = Except.ok v) :
    (Repository.GetSumSubscriptions pool startDate endDate name usersIds db).1
      = Except.ok (v.getD 0) := by
  simp only [Repository.GetSumSubscriptions]
  rcases hq : pool.QueryRowSum (Repository.sumQuery startDate endDate name usersIds) db.state
    with ⟨r, st⟩
  rw [hq] at h
  simp only at h
  subst h
  cases v <;> rfl

/-- The sum scenario of the specification on the in-memory store: two records priced 100 and
200, the first of the sample user. The sum for that user is 100; with a `users_ids` that holds
no UUID the sum is that of both records. -/
theorem sum_by_user_scenario :
    (Handler.GetSumSubscriptions memory.pool "" "" ""
        "123e4567-e89b-12d3-a456-426614174000"
        (memory.db [{ memory.sampleRow with Price := some 100 },
          { memory.sampleRow with
              ID := ⟨[0, 0, 0, 0, 0, 0, 0, 0, 0, 0, 0, 0, 0, 0, 0, 2]⟩, Price := some 200,
              UserID := ⟨[0, 0, 0, 0, 0, 0, 0, 0, 0, 0, 0, 0, 0, 0, 0, 1]⟩ }])).1
      = ⟨200, Payload.sum 100⟩
    ∧ (Handler.GetSumSubscriptions memory.pool "" "" "" " abc, ,"
        (memory.db [{ memory.sampleRow with Price := some 100 },
          { memory.sampleRow with
              ID := ⟨[0, 0, 0, 0, 0, 0, 0, 0, 0, 0, 0, 0, 0, 0, 0, 2]⟩, Price := some 200,
              UserID := ⟨[0, 0, 0, 0, 0, 0, 0, 0, 0, 0, 0, 0, 0, 0, 0, 1]⟩ }])).1
      = ⟨200, Payload.sum 300⟩ := by
  refine ⟨by decide, by decide⟩

theorem FieldMap.mem_map_other (m : FieldMap) (k k2 : String) (v v2 : Value) (hk : k2 ≠ k) :
    (k2, v2) ∈ (m.map fun e => if e.1 = k then (k, v) else e) ↔ (k2, v2) ∈ m := by
  constructor
  · intro h
    obtain ⟨e, he, heq⟩ := List.mem_map.mp h
    by_cases hek : e.1 = k
    · rw [if_pos hek] at heq
      exact absurd (congrArg Prod.fst heq).symm hk
    · rw [if_neg hek] at heq
      rw [← heq]
      exact he
  · intro h
    refine List.mem_map.mpr ⟨(k2, v2), h, ?_⟩
    rw [if_neg hk]

/-- The `start_date` step of the update handler leaves every member under another key as it
is. -/
theorem Handler.parsedStartDate_members (updates checked : FieldMap)
    (h : Handler.parsedStartDate updates = some checked) (k : String) (v : Value)
    (hk : k ≠ "start_date") : (k, v) ∈ checked ↔ (k, v) ∈ updates := by
  simp only [Handler.parsedStartDate] at h
  split at h
  · rename_i t hl
    split at h
    · cases h
    · split at h
      · cases h
      · cases h
        rw [FieldMap.set_eq_map _ _ _ _ hl]
        exact FieldMap.mem_map_other _ _ _ _ _ hk
  · cases h
    exact Iff.rfl

theorem uuid.version_byte (b : Fin 256) : (b.val &&& 0x0f) ||| 0x40 = b.val % 16 + 64 := by
  revert b
  decide

theorem uuid.variant_byte (b : Fin 256) : (b.val &&& 0x3f) ||| 0x80 = b.val % 64 + 128 := by
  revert b
  decide

/-- The bytes of a new UUID are those of the random source, but for the version, 4, in the
high half of byte 6 and the variant, binary 10, in the two high bits of byte 8. -/
theorem uuid.New_bytes (rnd : Fin 16 → Fin 256) :
    (uuid.New rnd).bytes
      = [(rnd 0).val, (rnd 1).val, (rnd 2).val, (rnd 3).val, (rnd 4).val, (rnd 5).val,
          (rnd 6).val % 16 + 64, (rnd 7).val, (rnd 8).val % 64 + 128, (rnd 9).val,
          (rnd 10).val, (rnd 11).val, (rnd 12).val, (rnd 13).val, (rnd 14).val,
          (rnd 15).val] := by
  have hf : List.finRange 16 = [0, 1, 2, 3, 4, 5, 6, 7, 8, 9, 10, 11, 12, 13, 14, 15] := by
    decide
  simp only [uuid.New, hf, List.map_cons, List.map_nil]
  rw [← uuid.version_byte (rnd 6), ← uuid.variant_byte (rnd 8)]
  rfl

/-- Two draws of the random source that give the same UUID agree on every byte but the sixth
and the eighth. -/
theorem uuid.New_inj (rnd rnd2 : Fin 16 → Fin 256) (h : uuid.New rnd = uuid.New rnd2)
    (i : Fin 16) (h6 : i.val ≠ 6) (h8 : i.val ≠ 8) : rnd i = rnd2 i := by
  have hb := congrArg UUID.bytes h
  rw [uuid.New_bytes, uuid.New_bytes] at hb
  simp only [List.cons.injEq, and_true] at hb
  obtain ⟨h0, h1, h2, h3, h4, h5, -, h7, -, h9, h10, h11, h12, h13, h14, h15⟩ := hb
  fin_cases i
  all_goals first
    | exact absurd rfl h6
    | exact absurd rfl h8
    | (apply Fin.ext; assumption)

/-- What `trimBoth` returns is the middle of the string: what it leaves out before and after
satisfies `p`, and what it returns neither starts nor ends with a character that does. -/
theorem strings.trimBoth_spec (p : Char → Bool) (s : List Char) :
    ∃ pre post : List Char, s = pre ++ strings.trimBoth p s ++ post
      ∧ (∀ c ∈ pre, p c = true) ∧ (∀ c ∈ post, p c = true)
      ∧ (∀ c, (strings.trimBoth p s).head? = some c → p c = false)
      ∧ (∀ c, (strings.trimBoth p s).getLast? = some c → p c = false) := by
  have hs : s = s.takeWhile p ++ s.dropWhile p := (List.takeWhile_append_dropWhile p s).symm
  have hr : (s.dropWhile p).reverse
      = (s.dropWhile p).reverse.takeWhile p ++ (s.dropWhile p).reverse.dropWhile p :=
    (List.takeWhile_append_dropWhile p _).symm
  have hr2 : s.dropWhile p
      = strings.trimBoth p s ++ ((s.dropWhile p).reverse.takeWhile p).reverse := by
    have := congrArg List.reverse hr
    rw [List.reverse_reverse, List.reverse_append] at this
    exact this
  refine ⟨s.takeWhile p, ((s.dropWhile p).reverse.takeWhile p).reverse, ?_, ?_, ?_, ?_, ?_⟩
  · rw [List.append_assoc, ← hr2]
    exact hs
  · intro c hc
    exact List.mem_takeWhile_imp hc
  · intro c hc
    exact List.mem_takeWhile_imp (List.mem_reverse.mp hc)
  · intro c hc
    have hh : (s.dropWhile p).head? = some c := by
      rw [hr2, List.head?_append, hc]
      rfl
    have := List.head?_dropWhile_not p s
    rw [hh] at this
    simpa using this
  · intro c hc
    simp only [strings.trimBoth, List.getLast?_reverse] at hc
    have := List.head?_dropWhile_not p (s.dropWhile p).reverse
    rw [hc] at this
    simpa using this

/-- Trimming is not affected by white space added around the string. -/
theorem strings.trimBoth_pad (p : Char → Bool) (pre s post : List Char)
    (hpre : ∀ c ∈ pre, p c = true) (hpost : ∀ c ∈ post, p c = true) :
    strings.trimBoth p (pre ++ s ++ post) = strings.trimBoth p s := by
  have hall : ∀ l : List Char, (∀ c ∈ l, p c = true) → l.dropWhile p = [] := fun l h =>
    List.dropWhile_eq_nil_iff.mpr h
  have h1 : (pre ++ s ++ post).dropWhile p = (s ++ post).dropWhile p := by
    rw [List.append_assoc, List.dropWhile_append_of_pos hpre]
  have hpostr : ∀ c ∈ post.reverse, p c = true := fun c hc => hpost c (List.mem_reverse.mp hc)
  simp only [strings.trimBoth, h1, List.dropWhile_append]
  by_cases he : (s.dropWhile p).isEmpty = true
  · rw [if_pos he, hall post hpost, List.isEmpty_iff.mp he]
  · rw [if_neg he, List.reverse_append, List.dropWhile_append_of_pos hpostr]

/-- The pieces of a split, joined again with the separator, are the string, and no piece holds
the separator. -/
theorem strings.splitOnChar_spec (sep : Char) (xs : List Char) :
    List.intercalate [sep] (strings.splitOnChar sep xs) = xs
      ∧ ∀ piece ∈ strings.splitOnChar sep xs, sep ∉ piece := by
  induction xs with
  | nil =>
    refine ⟨rfl, ?_⟩
    intro piece hp
    simp only [strings.splitOnChar, List.mem_singleton] at hp
    subst hp
    exact List.not_mem_nil _
  | cons c cs ih =>
    obtain ⟨hj, hm⟩ := ih
    rw [strings.splitOnChar_cons]
    by_cases hc : c = sep
    · rw [if_pos hc]
      constructor
      · cases hsp : strings.splitOnChar sep cs with
        | nil => exact absurd hsp (strings.splitOnChar_ne_nil sep cs)
        | cons piece pieces =>
          rw [hsp] at hj
          rw [← hj, hc]
          simp [List.intercalate, List.intersperse]
      · intro piece hp
        rcases List.mem_cons.mp hp with h | h
        · subst h
          exact List.not_mem_nil _
        · exact hm piece h
    · rw [if_neg hc]
      cases hsp : strings.splitOnChar sep cs with
      | nil => exact absurd hsp (strings.splitOnChar_ne_nil sep cs)
      | cons piece pieces =>
        rw [hsp] at hj hm
        constructor
        · rw [← hj]
          cases pieces <;> simp [List.intercalate, List.intersperse]
        · intro q hq
          rcases List.mem_cons.mp hq with h | h
          · subst h
            intro hmem
            rcases List.mem_cons.mp hmem with h2 | h2
            · exact hc h2.symm
            · exact hm piece (List.mem_cons_self _ _) h2
          · exact hm q (List.mem_cons_of_mem _ h)

/-- No white space character is a comma, a dash or a hexadecimal digit. -/
theorem strings.isSpace_not_uuid_char (c : Char) (h : strings.isSpace c = true) :
    c ≠ ',' ∧ c ≠ '-' ∧ uuid.xvalue c.toNat = none := by
  have hn : c.toNat ≤ 0x20 ∨ 0x85 ≤ c.toNat := by
    simp only [strings.isSpace, Bool.or_eq_true, beq_iff_eq, Bool.and_eq_true,
      decide_eq_true_eq] at h
    omega
  refine ⟨?_, ?_, ?_⟩
  · intro hc
    subst hc
    revert hn
    decide
  · intro hc
    subst hc
    revert hn
    decide
  · simp only [uuid.xvalue]
    rw [if_neg (by omega), if_neg (by omega), if_neg (by omega)]

theorem strings.TrimSpace_pad (pre post : List Char) (p : String)
    (hpre : ∀ c ∈ pre, strings.isSpace c = true) (hpost : ∀ c ∈ post, strings.isSpace c = true) :
    strings.TrimSpace ⟨pre ++ p.data ++ post⟩ = strings.TrimSpace p := by
  simp only [strings.TrimSpace, strings.trimBoth_pad _ pre p.data post hpre hpost]

theorem Repository.validIDs_single (p : String) (h : ',' ∉ p.data) :
    Repository.validIDs p = (uuid.Parse (strings.TrimSpace p)).toList := by
  rw [Repository.validIDs_eq_spec, Repository.specUserIDs, strings.SplitComma_none p h]
  cases hp : uuid.Parse (strings.TrimSpace p) with
  | none => simp [hp]
  | some id => simp [hp]

theorem Repository.validIDs_append (a b : String) :
    Repository.validIDs (a ++ "," ++ b) = Repository.validIDs a ++ Repository.validIDs b := by
  simp only [Repository.validIDs_eq_spec, Repository.specUserIDs, strings.SplitComma_append,
    List.map_append, List.filterMap_append]

theorem Repository.validIDs_pad (pre post : List Char) (p : String)
    (hpre : ∀ c ∈ pre, strings.isSpace c = true) (hpost : ∀ c ∈ post, strings.isSpace c = true)
    (h : ',' ∉ p.data) :
    Repository.validIDs ⟨pre ++ p.data ++ post⟩ = Repository.validIDs p := by
  have hc : ',' ∉ (String.mk (pre ++ p.data ++ post)).data := by
    intro hm
    simp only [List.mem_append] at hm
    rcases hm with (hm | hm) | hm
    · exact (strings.isSpace_not_uuid_char _ (hpre _ hm)).1 rfl
    · exact h hm
    · exact (strings.isSpace_not_uuid_char _ (hpost _ hm)).1 rfl
  rw [Repository.validIDs_single _ hc, Repository.validIDs_single _ h,
    strings.TrimSpace_pad pre post p hpre hpost]

theorem strings.SplitComma_spec (s : String) :
    List.intercalate [','] ((strings.SplitComma s).map String.data) = s.data
      ∧ ∀ p ∈ strings.SplitComma s, ',' ∉ p.data := by
  obtain ⟨hj, hm⟩ := strings.splitOnChar_spec ',' s.data
  constructor
  · simp only [strings.SplitComma, List.map_map]
    have : (String.data ∘ String.mk) = id := rfl
    rw [this, List.map_id]
    exact hj
  · intro p hp
    simp only [strings.SplitComma, List.mem_map] at hp
    obtain ⟨l, hl, rfl⟩ := hp
    exact hm l hl

/-- What the handlers answer when the data access layer reports `subscription not found`: 404
for a get-by-id and for a delete, but 500 for an update, whose handler has no case for this
report. (The id is the one the path spells, not nil; the update body is decoded from JSON, so
it holds no time value, and has passed the checks of the handler.) -/
theorem Handler.not_found_answers {σ : Type} (pool : Pool σ) (idStr : String) (id : UUID)
    (db : Db σ) (hp : uuid.Parse idStr = some id) (hid : id ≠ uuid.Nil) :
    ((Repository.GetSubscriptionByID pool id db).1
          = Except.error (GoError.errorsNew "subscription not found") →
        Handler.GetSubscriptionByID pool (some idStr) db
          = (responser.SendErr 404 "subscription not found",
              (Repository.GetSubscriptionByID pool id db).2))
    ∧ ((Repository.DeleteSubscription pool id db).1
          = some (GoError.errorsNew "subscription not found") →
        Handler.DeleteSubscription pool (some idStr) db
          = (responser.SendErr 404 "subscription not found",
              (Repository.DeleteSubscription pool id db).2))
    ∧ (∀ updates checked : FieldMap, updates ≠ [] →
        (∀ t, updates.lookup "start_date" ≠ some (Value.time t)) →
        Handler.parsedStartDate updates = some checked →
        (Repository.UpdateSubscription pool id checked db).1
          = Except.error (GoError.errorsNew "subscription not found") →
        Handler.UpdateSubscription pool (some idStr) (Except.ok updates) db
          = (responser.SendErr 500 "subscription not found",
              (Repository.UpdateSubscription pool id checked db).2)) := by
  refine ⟨?_, ?_, ?_⟩
  · intro h
    simp only [Handler.GetSubscriptionByID, Option.getD_some, hp, UseCase.GetSubscriptionByID,
      if_neg hid]
    rcases hr : Repository.GetSubscriptionByID pool id db with ⟨r, d⟩
    rw [hr] at h
    simp only at h
    subst h
    rfl
  · intro h
    simp only [Handler.DeleteSubscription, Option.getD_some, hp, UseCase.DeleteSubscription,
      if_neg hid]
    rcases hr : Repository.DeleteSubscription pool id db with ⟨r, d⟩
    rw [hr] at h
    simp only at h
    subst h
    rfl
  · intro updates checked hne hjson hc h
    have hne2 := (Handler.parsedStartDate_keys updates checked hc).2 hne
    rw [Handler.UpdateSubscription_reach pool idStr id updates checked db hp hne hc,
      UseCase.UpdateSubscription_delegates pool id checked db hid hne2
        (Handler.parsedStartDate_nonzero updates checked hjson hc)]
    rcases hr : Repository.UpdateSubscription pool id checked db with ⟨r, d⟩
    rw [hr] at h
    simp only at h
    subst h
    rfl

end Subscriptions

/-! ## The claims -/

namespace Subscriptions

open models (MonthYear Subscription)
open uuid (UUID)
open time

/-- C1. An update with an empty field map is rejected before the store is reached, for every id:
the business logic layer returns an error (`id is required` for the nil id, `no fields to
update` otherwise) and the data access layer, called directly, returns `no fields to update`;
in both cases the store state and the log of executed statements are what they were. -/
theorem C1_update_with_empty_map_rejected {σ : Type} (pool : Pool σ) (id : UUID) (db : Db σ) :
    UseCase.UpdateSubscription pool id [] db
      = (Except.error (GoError.errorsNew
          (if id = uuid.Nil then "id is required" else "no fields to update")), db)
    ∧ Repository.UpdateSubscription pool id [] db
      = (Except.error (GoError.errorsNew "no fields to update"), db) := by
  constructor
  · by_cases h : id = uuid.Nil
    · simp only [UseCase.UpdateSubscription, if_pos h]
    · simp only [UseCase.UpdateSubscription, if_neg h, List.length_nil, if_true]
  · simp only [Repository.UpdateSubscription, List.length_nil, if_true]

/-- C2 (as the code has it). The `SET` clauses of an update are the members of the request body,
whatever their keys. An update request either is answered without any statement, or hands the
store exactly one statement, an `UPDATE` filtered by the id of the path, whose `SET` clauses
are the entries of the body after the `start_date` step, in an order the code does not fix:
the columns are the keys of the body, and every member under a key other than `start_date` is
a clause as it stands. A request with an id that is not nil and a body decoded from JSON (so
without time values) that is not empty and passes the `start_date` step does hand the store
this statement; so a member `id` of such a body, like any member, is a `SET` clause. -/
theorem C2_update_sets_are_body_members {σ : Type} (pool : Pool σ) (idVar : Option String)
    (updates : FieldMap) (db : Db σ) :
    ((Handler.UpdateSubscription pool idVar (Except.ok updates) db).2.log = db.log
      ∨ ∃ (idStr : String) (id : UUID) (checked sets : FieldMap),
          idVar = some idStr ∧ uuid.Parse idStr = some id
          ∧ Handler.parsedStartDate updates = some checked
          ∧ (Handler.UpdateSubscription pool idVar (Except.ok updates) db).2.log
              = db.log ++ [Statement.Update "subscriptions" sets
                  [Pred.Eq "id" (Value.uuid id)] returning]
          ∧ sets.Perm checked
          ∧ (∀ k, k ∈ sets.map Prod.fst ↔ k ∈ updates.map Prod.fst)
          ∧ (∀ k v, k ≠ "start_date" → ((k, v) ∈ sets ↔ (k, v) ∈ updates)))
    ∧ (∀ (idStr : String) (id : UUID) (checked : FieldMap),
        idVar = some idStr → uuid.Parse idStr = some id → id ≠ uuid.Nil → updates ≠ [] →
        (∀ t, updates.lookup "start_date" ≠ some (Value.time t)) →
        Handler.parsedStartDate updates = some checked →
        ∃ sets : FieldMap,
          (Handler.UpdateSubscription pool idVar (Except.ok updates) db).2.log
              = db.log ++ [Statement.Update "subscriptions" sets
                  [Pred.Eq "id" (Value.uuid id)] returning]
          ∧ sets.Perm checked
          ∧ (∀ k, k ∈ sets.map Prod.fst ↔ k ∈ updates.map Prod.fst)
          ∧ (∀ k v, k ≠ "start_date" → ((k, v) ∈ sets ↔ (k, v) ∈ updates))
          ∧ (∀ v, ("id", v) ∈ updates → ("id", v) ∈ sets)) := by
  constructor
  · rcases idVar with _ | idStr
    · left
      exact congrArg Db.log (Handler.UpdateSubscription_invalid pool none _ db (Or.inl rfl)).2
    · cases hp : uuid.Parse idStr with
      | none =>
        left
        exact congrArg Db.log (Handler.UpdateSubscription_invalid pool _ _ db
          (Or.inr (Or.inr (Or.inl ⟨idStr, rfl, hp⟩)))).2
      | some id =>
        by_cases hne : updates = []
        · left
          subst hne
          exact congrArg Db.log (Handler.UpdateSubscription_invalid pool _ _ db
            (Or.inr (Or.inr (Or.inr (Or.inr (Or.inl rfl)))))).2
        · cases hc : Handler.parsedStartDate updates with
          | none =>
            left
            exact congrArg Db.log (Handler.UpdateSubscription_invalid pool _ _ db
              (Or.inr (Or.inr (Or.inr (Or.inr (Or.inr ⟨updates, rfl, hc⟩)))))).2
          | some checked =>
            rw [Handler.UpdateSubscription_reach pool idStr id updates checked db hp hne hc,
              Handler.update_snd]
            obtain ⟨hkeys, -⟩ := Handler.parsedStartDate_keys updates checked hc
            rcases UseCase.UpdateSubscription_log_cases pool id checked db with h | ⟨-, h⟩
            · left; exact h
            · right
              refine ⟨idStr, id, checked, checked, rfl, hp, rfl, ?_, List.Perm.refl _, ?_, ?_⟩
              · rw [h, Repository.updateQuery_eq]
              · intro k
                rw [hkeys]
              · intro k v hk
                exact Handler.parsedStartDate_members updates checked hc k v hk
  · intro idStr id checked hid hp hnil hne hjson hc
    subst hid
    obtain ⟨hkeys, hne2⟩ := Handler.parsedStartDate_keys updates checked hc
    refine ⟨checked, ?_, List.Perm.refl _, ?_, ?_, ?_⟩
    · rw [Handler.UpdateSubscription_reach pool idStr id updates checked db hp hne hc,
        Handler.update_snd,
        UseCase.UpdateSubscription_delegates pool id checked db hnil (hne2 hne)
          (Handler.parsedStartDate_nonzero updates checked hjson hc),
        Repository.UpdateSubscription_log pool id checked db (hne2 hne),
        Repository.updateQuery_eq]
    · intro k
      rw [hkeys]
    · intro k v hk
      exact Handler.parsedStartDate_members updates checked hc k v hk
    · intro v hv
      exact (Handler.parsedStartDate_members updates checked hc "id" v (by decide)).mpr hv

/-- C2 at the body with the members `ID` and `price`, for the sample record of the in-memory
store: the statement handed to the store has the two members as its `SET` clauses. -/
theorem C2_update_sets_are_body_members_witness :
    ∃ sets : FieldMap,
      (Handler.UpdateSubscription memory.pool (some "123e4567-e89b-12d3-a456-426614174000")
          (Except.ok [("ID", Value.str "00000000-0000-0000-0000-000000000001"),
            ("price", Value.number 1099)]) (memory.db [memory.sampleRow])).2.log
        = (memory.db [memory.sampleRow]).log ++ [Statement.Update "subscriptions" sets
            [Pred.Eq "id" (Value.uuid memory.sampleId)] returning]
      ∧ sets.Perm [("ID", Value.str "00000000-0000-0000-0000-000000000001"),
          ("price", Value.number 1099)]
      ∧ (∀ k, k ∈ sets.map Prod.fst
          ↔ k ∈ [("ID", Value.str "00000000-0000-0000-0000-000000000001"),
            ("price", Value.number 1099)].map Prod.fst)
      ∧ (∀ k v, k ≠ "start_date" →
          ((k, v) ∈ sets ↔ (k, v) ∈ [("ID", Value.str "00000000-0000-0000-0000-000000000001"),
            ("price", Value.number 1099)]))
      ∧ (∀ v, ("id", v) ∈ [("ID", Value.str "00000000-0000-0000-0000-000000000001"),
            ("price", Value.number 1099)] → ("id", v) ∈ sets) :=
  (C2_update_sets_are_body_members memory.pool (some "123e4567-e89b-12d3-a456-426614174000")
    [("ID", Value.str "00000000-0000-0000-0000-000000000001"), ("price", Value.number 1099)]
    (memory.db [memory.sampleRow])).2 "123e4567-e89b-12d3-a456-426614174000" memory.sampleId
    [("ID", Value.str "00000000-0000-0000-0000-000000000001"), ("price", Value.number 1099)]
    rfl (by decide) (by decide) (by decide) (by intro t h; simp [List.lookup] at h) (by decide)

/-- C2 as stated fails: the update request with the body of the one member `id` is accepted by
the request layer and by the business logic, and the statement handed to the store has a `SET`
clause for the column `id`; on the in-memory store the record then has the new id. -/
theorem C2_counterexample :
    (Handler.UpdateSubscription memory.pool (some "123e4567-e89b-12d3-a456-426614174000")
        (Except.ok [("id", Value.str "00000000-0000-0000-0000-000000000001")])
        (memory.db [memory.sampleRow])).2.log
      = [Statement.Update "subscriptions"
          [("id", Value.str "00000000-0000-0000-0000-000000000001")]
          [Pred.Eq "id" (Value.uuid memory.sampleId)] returning]
    ∧ (Handler.UpdateSubscription memory.pool (some "123e4567-e89b-12d3-a456-426614174000")
        (Except.ok [("id", Value.str "00000000-0000-0000-0000-000000000001")])
        (memory.db [memory.sampleRow])).1.status = 200
    ∧ ((Handler.UpdateSubscription memory.pool (some "123e4567-e89b-12d3-a456-426614174000")
        (Except.ok [("id", Value.str "00000000-0000-0000-0000-000000000001")])
        (memory.db [memory.sampleRow])).2.state.map (·.ID))
      = [⟨[0, 0, 0, 0, 0, 0, 0, 0, 0, 0, 0, 0, 0, 0, 0, 1]⟩] := by
  refine ⟨by decide, by decide, by decide⟩

/-- C3 (as the code has it). When the `end_date` of a record was decoded from its wire string,
the insert statement of `CreateSubscription` carries that decoded instant as it is: day 1 of
the month at 00:00:00 UTC, the first instant of the month, which is never the end-of-month
boundary (one second before the first instant of the following month). -/
theorem C3_end_date_inserted_as_first_of_month {σ : Type} (pool : Pool σ) (db : Db σ)
    (sub : Subscription) (b : String) (m : MonthYear)
    (hdec : MonthYear.UnmarshalJSON b = Except.ok m) (hend : sub.EndDate = some m) :
    (Repository.CreateSubscription pool sub db).2.log
        = db.log ++ [Statement.Insert "subscriptions" columns
            [Value.uuid sub.ID, Value.str sub.ServiceName, Value.ofPrice sub.Price,
             Value.uuid sub.UserID, Value.time sub.StartDate.t, Value.time m.t] returning]
    ∧ m.t = Date m.t.Year m.t.Month 1 0 0 0 0
    ∧ m.t.Day = 1 ∧ m.t.Clock = (0, 0, 0) ∧ m.t.nsec = 0
    ∧ m.t ≠ (Date m.t.Year ((m.t.Month : Int) + 1) 1 0 0 0 0).Add (-Second) := by
  have hparse : Parse layoutMonthYear (strings.TrimQuote b) = Except.ok m.t := by
    simp only [MonthYear.UnmarshalJSON] at hdec
    cases hp : Parse layoutMonthYear (strings.TrimQuote b) with
    | error e => rw [hp] at hdec; cases hdec
    | ok t =>
      rw [hp] at hdec
      simp only [Except.ok.injEq] at hdec
      rw [← hdec]
  obtain ⟨m1, m2, y1, y2, y3, y4, -, -, -, -, -, -, -, hlo, hhi, ht⟩ :=
    Parse_monthYear_date _ _ hparse
  generalize 1000 * digitVal y1 + 100 * digitVal y2 + 10 * digitVal y3 + digitVal y4 = y at ht
  generalize digitVal m1 * 10 + digitVal m2 = mo at ht hlo hhi
  have hf := first_of_month_fields y mo hlo hhi
  have he := end_of_month_fields y mo hlo hhi
  rw [← ht] at hf
  rw [hf.1, hf.2.1]
  refine ⟨?_, ht, hf.2.2.1, hf.2.2.2.1, hf.2.2.2.2, ?_⟩
  · rw [Repository.CreateSubscription_log]
    simp only [Repository.insertQuery, hend, MonthYear.PtrTime, MonthYear.Time, Value.ofTimePtr]
  · intro heq
    have h1 := hf.2.2.2.1
    rw [heq, he.2.2.2.1] at h1
    exact absurd h1 (by decide)

/-- C3 at the wire string `03-2024`, on the in-memory store. -/
theorem C3_end_date_inserted_as_first_of_month_witness :
    (Repository.CreateSubscription memory.pool
        { memory.sampleRow with EndDate := some ⟨Date 2024 3 1 0 0 0 0⟩ } (memory.db [])).2.log
        = (memory.db []).log ++ [Statement.Insert "subscriptions" columns
            [Value.uuid memory.sampleId, Value.str "Netflix", Value.ofPrice (some 999),
             Value.uuid memory.sampleId, Value.time (Date 2024 3 1 0 0 0 0),
             Value.time (Date 2024 3 1 0 0 0 0)] returning]
    ∧ Date 2024 3 1 0 0 0 0
        = Date (Date 2024 3 1 0 0 0 0).Year (Date 2024 3 1 0 0 0 0).Month 1 0 0 0 0
    ∧ (Date 2024 3 1 0 0 0 0).Day = 1 ∧ (Date 2024 3 1 0 0 0 0).Clock = (0, 0, 0)
    ∧ (Date 2024 3 1 0 0 0 0).nsec = 0
    ∧ Date 2024 3 1 0 0 0 0
        ≠ (Date (Date 2024 3 1 0 0 0 0).Year (((Date 2024 3 1 0 0 0 0).Month : Int) + 1)
            1 0 0 0 0).Add (-Second) :=
  C3_end_date_inserted_as_first_of_month memory.pool (memory.db [])
    { memory.sampleRow with EndDate := some ⟨Date 2024 3 1 0 0 0 0⟩ } "\"03-2024\""
    ⟨Date 2024 3 1 0 0 0 0⟩ (by decide) rfl

/-- C3 as stated fails: a create with `end_date` decoded from `03-2024` inserts 2024-03-01
00:00:00 UTC as `end_date`, while the end-of-month boundary is 2024-03-31 23:59:59 UTC. -/
theorem C3_counterexample :
    MonthYear.UnmarshalJSON "\"03-2024\"" = Except.ok ⟨Date 2024 3 1 0 0 0 0⟩
    ∧ (UseCase.CreateSubscription memory.pool (fun _ => 0)
        { memory.sampleRow with EndDate := some ⟨Date 2024 3 1 0 0 0 0⟩ } (memory.db [])).2.log
        = [Statement.Insert "subscriptions" columns
            [Value.uuid memory.sampleId, Value.str "Netflix", Value.int 999,
             Value.uuid memory.sampleId, Value.time (Date 2024 3 1 0 0 0 0),
             Value.time (Date 2024 3 1 0 0 0 0)] returning]
    ∧ ((Date 2024 3 1 0 0 0 0).Day, (Date 2024 3 1 0 0 0 0).Clock) = (1, 0, 0, 0)
    ∧ (((Date 2024 4 1 0 0 0 0).Add (-Second)).Day,
        ((Date 2024 4 1 0 0 0 0).Add (-Second)).Clock) = (31, 23, 59, 59)
    ∧ Date 2024 3 1 0 0 0 0 ≠ (Date 2024 4 1 0 0 0 0).Add (-Second) := by
  refine ⟨by decide, by decide, by decide, by decide, by decide⟩

/-- C4. Round trip of the wire format of `MonthYear`: for every string `MM-YYYY` (two digits
that are a month from 01 to 12, a dash, four digits), `UnmarshalJSON` of the quoted string
succeeds with the first day of that month of that year at 00:00:00 UTC, and `MarshalJSON` of the
result is the quoted string again. -/
theorem C4_monthYear_wire_roundtrip (m1 m2 y1 y2 y3 y4 : Char)
    (hm1 : isDigit m1 = true) (hm2 : isDigit m2 = true) (h1 : isDigit y1 = true)
    (h2 : isDigit y2 = true) (h3 : isDigit y3 = true) (h4 : isDigit y4 = true)
    (hlo : 1 ≤ digitVal m1 * 10 + digitVal m2) (hhi : digitVal m1 * 10 + digitVal m2 ≤ 12) :
    ∃ m : MonthYear,
      MonthYear.UnmarshalJSON ⟨['"', m1, m2, '-', y1, y2, y3, y4, '"']⟩ = Except.ok m
      ∧ m.t = Date ((1000 * digitVal y1 + 100 * digitVal y2 + 10 * digitVal y3 + digitVal y4 : Nat)
            : Int) ((digitVal m1 * 10 + digitVal m2 : Nat) : Int) 1 0 0 0 0
      ∧ m.t.Year = ((1000 * digitVal y1 + 100 * digitVal y2 + 10 * digitVal y3 + digitVal y4 : Nat)
            : Int)
      ∧ m.t.Month = digitVal m1 * 10 + digitVal m2
      ∧ m.t.Day = 1 ∧ m.t.Clock = (0, 0, 0) ∧ m.t.nsec = 0
      ∧ m.MarshalJSON = ⟨['"', m1, m2, '-', y1, y2, y3, y4, '"']⟩ := by
  have hf := first_of_month_fields
    (1000 * digitVal y1 + 100 * digitVal y2 + 10 * digitVal y3 + digitVal y4)
    (digitVal m1 * 10 + digitVal m2) hlo hhi
  have htrim := trimQuote_quoted m1 y4 [m2, '-', y1, y2, y3] hm1 h4
  simp only [List.cons_append, List.nil_append] at htrim
  refine ⟨⟨Date _ _ 1 0 0 0 0⟩, ?_, rfl, hf.1, hf.2.1, hf.2.2.1, hf.2.2.2.1, hf.2.2.2.2, ?_⟩
  · simp only [MonthYear.UnmarshalJSON, htrim,
      Parse_monthYear_form m1 m2 y1 y2 y3 y4 hm1 hm2 h1 h2 h3 h4 hlo hhi]
  · simp only [MonthYear.MarshalJSON, layoutMonthYear, Time.Format, hf.1, hf.2.1,
      appendInt_month m1 m2 hm1 hm2, appendInt_year y1 y2 y3 y4 h1 h2 h3 h4]
    rfl

/-- C4 at the string `03-2024`. -/
theorem C4_monthYear_wire_roundtrip_witness :
    ∃ m : MonthYear,
      MonthYear.UnmarshalJSON "\"03-2024\"" = Except.ok m
      ∧ m.t = time.Date 2024 3 1 0 0 0 0
      ∧ m.t.Year = 2024 ∧ m.t.Month = 3 ∧ m.t.Day = 1 ∧ m.t.Clock = (0, 0, 0) ∧ m.t.nsec = 0
      ∧ m.MarshalJSON = "\"03-2024\"" :=
  C4_monthYear_wire_roundtrip '0' '3' '2' '0' '2' '4' (by decide) (by decide) (by decide)
    (by decide) (by decide) (by decide) (by decide) (by decide)

/-- C5. Business-logic create. It returns the validation error `start date is nil` with the
store untouched exactly when `start_date` is the zero sentinel. Otherwise it is the one call of
the data access layer on the record that has the caller's id when that is not nil and a freshly
generated id when it is, and the other fields unchanged; that call executes the one insert of
this record, and the id of the record is never nil. The generated id is made of the sixteen
bytes the random source gives for this call, with the version 4 and the variant stamped in
bytes 6 and 8: two calls whose draws differ in another byte generate different ids and insert
different records. -/
theorem C5_create_in_business_logic {σ : Type} (pool : Pool σ) (rnd : Fin 16 → Fin 256)
    (sub : Subscription) (db : Db σ) :
    ((∃ err, UseCase.CreateSubscription pool rnd sub db = (Except.error err, db))
        ↔ sub.StartDate = MonthYear.mk ⟨0, 0⟩)
    ∧ (sub.StartDate = MonthYear.mk ⟨0, 0⟩ →
        UseCase.CreateSubscription pool rnd sub db
          = (Except.error (GoError.errorsNew "start date is nil"), db))
    ∧ (sub.StartDate ≠ MonthYear.mk ⟨0, 0⟩ →
        UseCase.CreateSubscription pool rnd sub db
          = Repository.CreateSubscription pool
              { sub with ID := if sub.ID = uuid.Nil then uuid.New rnd else sub.ID } db
        ∧ (UseCase.CreateSubscription pool rnd sub db).2.log
          = db.log ++ [Repository.insertQuery
              { sub with ID := if sub.ID = uuid.Nil then uuid.New rnd else sub.ID }])
    ∧ (if sub.ID = uuid.Nil then uuid.New rnd else sub.ID) ≠ uuid.Nil
    ∧ (uuid.New rnd).bytes
        = [(rnd 0).val, (rnd 1).val, (rnd 2).val, (rnd 3).val, (rnd 4).val, (rnd 5).val,
            (rnd 6).val % 16 + 64, (rnd 7).val, (rnd 8).val % 64 + 128, (rnd 9).val,
            (rnd 10).val, (rnd 11).val, (rnd 12).val, (rnd 13).val, (rnd 14).val,
            (rnd 15).val]
    ∧ (∀ rnd2 : Fin 16 → Fin 256, (∃ i : Fin 16, i.val ≠ 6 ∧ i.val ≠ 8 ∧ rnd i ≠ rnd2 i) →
        uuid.New rnd ≠ uuid.New rnd2
        ∧ (sub.ID = uuid.Nil → sub.StartDate ≠ MonthYear.mk ⟨0, 0⟩ →
            (UseCase.CreateSubscription pool rnd sub db).2.log
              ≠ (UseCase.CreateSubscription pool rnd2 sub db).2.log)) := by
  have hzero : sub.StartDate = MonthYear.mk ⟨0, 0⟩ →
      UseCase.CreateSubscription pool rnd sub db
        = (Except.error (GoError.errorsNew "start date is nil"), db) := by
    intro h
    by_cases hid : sub.ID = uuid.Nil
    · simp only [UseCase.CreateSubscription, if_pos hid, h, if_true]
    · simp only [UseCase.CreateSubscription, if_neg hid, h, if_true]
  have hnz : ∀ r : Fin 16 → Fin 256, sub.StartDate ≠ MonthYear.mk ⟨0, 0⟩ →
      UseCase.CreateSubscription pool r sub db
        = Repository.CreateSubscription pool
            { sub with ID := if sub.ID = uuid.Nil then uuid.New r else sub.ID } db :=
    fun r h => UseCase.CreateSubscription_delegates pool r sub db h
  refine ⟨⟨?_, fun h => ⟨_, hzero h⟩⟩, hzero, ?_, ?_, ?_, ?_⟩
  · rintro ⟨err, he⟩
    by_contra hne
    have hlog := Repository.CreateSubscription_log pool
      { sub with ID := if sub.ID = uuid.Nil then uuid.New rnd else sub.ID } db
    rw [← hnz rnd hne, he] at hlog
    have := congrArg List.length hlog
    simp at this
  · intro h
    refine ⟨hnz rnd h, ?_⟩
    rw [hnz rnd h, Repository.CreateSubscription_log]
  · split
    · exact uuid.New_ne_Nil rnd
    · assumption
  · have hf : List.finRange 16 = [0, 1, 2, 3, 4, 5, 6, 7, 8, 9, 10, 11, 12, 13, 14, 15] := by
      decide
    simp only [uuid.New, hf, List.map_cons, List.map_nil]
    rw [← uuid.version_byte (rnd 6), ← uuid.variant_byte (rnd 8)]
    rfl
  · rintro rnd2 ⟨i, h6, h8, hi⟩
    have hne : uuid.New rnd ≠ uuid.New rnd2 := fun h => hi (uuid.New_inj rnd rnd2 h i h6 h8)
    refine ⟨hne, ?_⟩
    intro hid hstart hlog
    rw [hnz rnd hstart, hnz rnd2 hstart, Repository.CreateSubscription_log,
      Repository.CreateSubscription_log, if_pos hid, if_pos hid] at hlog
    have hq := List.append_cancel_left hlog
    simp only [Repository.insertQuery, List.cons.injEq, Statement.Insert.injEq,
      Value.uuid.injEq, and_true, true_and] at hq
    exact hne hq

/-- C5 on the empty in-memory store: the record without id gets the id
`07070707-0707-4707-8707-070707070707` when every byte drawn is 7 and
`09090909-0909-4909-8909-090909090909` when every byte drawn is 9, and the record with the
sample id keeps it. -/
theorem C5_create_in_business_logic_witness :
    (UseCase.CreateSubscription memory.pool (fun _ => 7)
        { memory.sampleRow with ID := uuid.Nil } (memory.db [])).2.log
      = [Repository.insertQuery { memory.sampleRow with
          ID := ⟨[7, 7, 7, 7, 7, 7, 0x47, 7, 0x87, 7, 7, 7, 7, 7, 7, 7]⟩ }]
    ∧ (UseCase.CreateSubscription memory.pool (fun _ => 9)
        { memory.sampleRow with ID := uuid.Nil } (memory.db [])).2.log
      = [Repository.insertQuery { memory.sampleRow with
          ID := ⟨[9, 9, 9, 9, 9, 9, 0x49, 9, 0x89, 9, 9, 9, 9, 9, 9, 9]⟩ }]
    ∧ (UseCase.CreateSubscription memory.pool (fun _ => 7) memory.sampleRow
        (memory.db [])).2.log
      = [Repository.insertQuery memory.sampleRow] :=
  ⟨((C5_create_in_business_logic memory.pool (fun _ => 7)
      { memory.sampleRow with ID := uuid.Nil } (memory.db [])).2.2.1 (by decide)).2.trans
      (by decide),
    ((C5_create_in_business_logic memory.pool (fun _ => 9)
      { memory.sampleRow with ID := uuid.Nil } (memory.db [])).2.2.1 (by decide)).2.trans
      (by decide),
    ((C5_create_in_business_logic memory.pool (fun _ => 7) memory.sampleRow
      (memory.db [])).2.2.1 (by decide)).2.trans (by decide)⟩

/-- C6 (as the code has it). A request that fails a validation rule of the request layer is
answered 400 and does not reach the store: an update with a missing, empty or malformed id, an
undecodable or empty body, or a `start_date` string that does not parse as a non-zero YYYY-MM;
a get-by-id or delete with a malformed id; a create with an empty `service_name`, a zero
`start_date`, no `price` or a nil `user_id`. The nil id is well-formed for the request layer and
rejected by the business logic with `id is required`, without reaching the store; the handler
then answers as for any error of the business logic: 404 for get-by-id, 500 for delete and
update. -/
theorem C6_validation_statuses {σ : Type} (pool : Pool σ) (db : Db σ) :
    (∀ (idVar : Option String) (body : Except String FieldMap),
        (idVar = none ∨ idVar = some "" ∨ (∃ s, idVar = some s ∧ uuid.Parse s = none)
          ∨ (∃ e, body = Except.error e) ∨ body = Except.ok []
          ∨ (∃ u, body = Except.ok u ∧ Handler.parsedStartDate u = none)) →
        (Handler.UpdateSubscription pool idVar body db).1.status = 400
          ∧ (Handler.UpdateSubscription pool idVar body db).2 = db)
    ∧ (∀ idVar : Option String, uuid.Parse (idVar.getD "") = none →
        Handler.GetSubscriptionByID pool idVar db
            = (responser.SendErr 400 "invalid id format", db)
          ∧ Handler.DeleteSubscription pool idVar db
            = (responser.SendErr 400 "invalid id format", db))
    ∧ (∀ (rnd rnd2 : Fin 16 → Fin 256) (b : reader.CreateBody),
        (b.service_name = "" ∨ b.start_date = MonthYear.mk ⟨0, 0⟩ ∨ b.price = none
          ∨ b.user_id = uuid.Nil) →
        (Handler.CreateSubscription pool rnd rnd2 (Except.ok b) db).1.status = 400
          ∧ (Handler.CreateSubscription pool rnd rnd2 (Except.ok b) db).2 = db)
    ∧ (∀ idStr : String, uuid.Parse idStr = some uuid.Nil →
        Handler.GetSubscriptionByID pool (some idStr) db
            = (responser.SendErr 404 "id is required", db)
          ∧ Handler.DeleteSubscription pool (some idStr) db
            = (responser.SendErr 500 "id is required", db)
          ∧ ∀ updates checked : FieldMap, updates ≠ [] →
              Handler.parsedStartDate updates = some checked →
              Handler.UpdateSubscription pool (some idStr) (Except.ok updates) db
                = (responser.SendErr 500 "id is required", db)) := by
  refine ⟨?_, ?_, ?_, ?_⟩
  · intro idVar body h
    exact Handler.UpdateSubscription_invalid pool idVar body db h
  · intro idVar h
    exact ⟨Handler.GetSubscriptionByID_invalid pool idVar db h,
      Handler.DeleteSubscription_invalid pool idVar db h⟩
  · intro rnd rnd2 b h
    exact Handler.CreateSubscription_invalid pool rnd rnd2 b db h
  · intro idStr hp
    refine ⟨?_, ?_, ?_⟩
    · simp only [Handler.GetSubscriptionByID, Option.getD_some, hp,
        UseCase.GetSubscriptionByID, if_true]
      rfl
    · simp only [Handler.DeleteSubscription, Option.getD_some, hp,
        UseCase.DeleteSubscription, if_true]
      rfl
    · intro updates checked hne hc
      rw [Handler.UpdateSubscription_reach pool idStr uuid.Nil updates checked db hp hne hc]
      simp only [UseCase.UpdateSubscription, if_true]
      rfl

/-- C6 as stated fails: on the nil id `00000000-0000-0000-0000-000000000000` the business logic
rejects the input with the validation error `id is required`, and the answer is 500 for DELETE,
404 for GET and 500 for PUT, not 400. -/
theorem C6_counterexample :
    (UseCase.DeleteSubscription memory.pool uuid.Nil (memory.db [memory.sampleRow])).1
        = some (GoError.errorsNew "id is required")
    ∧ (Handler.DeleteSubscription memory.pool (some "00000000-0000-0000-0000-000000000000")
        (memory.db [memory.sampleRow])).1 = ⟨500, Payload.error "id is required"⟩
    ∧ (Handler.GetSubscriptionByID memory.pool (some "00000000-0000-0000-0000-000000000000")
        (memory.db [memory.sampleRow])).1 = ⟨404, Payload.error "id is required"⟩
    ∧ (Handler.UpdateSubscription memory.pool (some "00000000-0000-0000-0000-000000000000")
        (Except.ok [("price", Value.number 1099)]) (memory.db [memory.sampleRow])).1
        = ⟨500, Payload.error "id is required"⟩ := by
  refine ⟨by decide, by decide, by decide, by decide⟩

/-- C7. The code on an update of an id that no row has, the sample id on the empty in-memory
store with the body of the one member `price`: the data access layer reports `subscription not
found`, and the update handler answers 500 with this text, where the claim says 404. On the
same store and id, the delete and the get-by-id handlers answer 404 to the same report. -/
theorem C7_update_of_missing_id_answers_500 :
    (Repository.UpdateSubscription memory.pool memory.sampleId [("price", Value.number 1099)]
        (memory.db [])).1 = Except.error (GoError.errorsNew "subscription not found")
    ∧ (Handler.UpdateSubscription memory.pool (some "123e4567-e89b-12d3-a456-426614174000")
        (Except.ok [("price", Value.number 1099)]) (memory.db [])).1
        = ⟨500, Payload.error "subscription not found"⟩
    ∧ (Repository.DeleteSubscription memory.pool memory.sampleId (memory.db [])).1
        = some (GoError.errorsNew "subscription not found")
    ∧ (Handler.DeleteSubscription memory.pool (some "123e4567-e89b-12d3-a456-426614174000")
        (memory.db [])).1 = ⟨404, Payload.error "subscription not found"⟩
    ∧ (Repository.GetSubscriptionByID memory.pool memory.sampleId (memory.db [])).1
        = Except.error (GoError.errorsNew "subscription not found")
    ∧ (Handler.GetSubscriptionByID memory.pool (some "123e4567-e89b-12d3-a456-426614174000")
        (memory.db [])).1 = ⟨404, Payload.error "subscription not found"⟩ := by
  refine ⟨by decide, by decide, by decide, by decide, by decide, by decide⟩

/-- C8 (as the code has it). The date parameters of the sum query are read in the format
MM-YYYY: for every month and year, the string MM-YYYY passed as `start_date` adds the predicate
`start_date >=` the first instant of that month, passed as `end_date` it adds `end_date <=` one
second before the first instant of the next month; the string YYYY-MM of the same month and
year adds no predicate, in either place. -/
theorem C8_sum_dates_read_as_month_year (m1 m2 y1 y2 y3 y4 : Char)
    (hm1 : isDigit m1 = true) (hm2 : isDigit m2 = true) (h1 : isDigit y1 = true)
    (h2 : isDigit y2 = true) (h3 : isDigit y3 = true) (h4 : isDigit y4 = true)
    (hlo : 1 ≤ digitVal m1 * 10 + digitVal m2) (hhi : digitVal m1 * 10 + digitVal m2 ≤ 12)
    (startDate endDate name usersIds : String) :
    Repository.sumQuery ⟨[m1, m2, '-', y1, y2, y3, y4]⟩ endDate name usersIds
      = Statement.Select ["SUM(price)"] "subscriptions"
          (Pred.GtOrEq "start_date" (Value.time (Date
              ((1000 * digitVal y1 + 100 * digitVal y2 + 10 * digitVal y3 + digitVal y4 : Nat) : Int)
              ((digitVal m1 * 10 + digitVal m2 : Nat) : Int) 1 0 0 0 0))
            :: (Repository.endDatePreds endDate ++ Repository.namePreds name
                ++ Repository.usersPreds usersIds))
    ∧ Repository.sumQuery startDate ⟨[m1, m2, '-', y1, y2, y3, y4]⟩ name usersIds
      = Statement.Select ["SUM(price)"] "subscriptions"
          (Repository.startDatePreds startDate
            ++ Pred.LtOrEq "end_date" (Value.time ((Date
              ((1000 * digitVal y1 + 100 * digitVal y2 + 10 * digitVal y3 + digitVal y4 : Nat) : Int)
              (((digitVal m1 * 10 + digitVal m2 : Nat) : Int) + 1) 1 0 0 0 0).Add (-Second)))
            :: (Repository.namePreds name ++ Repository.usersPreds usersIds))
    ∧ Repository.sumQuery ⟨[y1, y2, y3, y4, '-', m1, m2]⟩ endDate name usersIds
      = Statement.Select ["SUM(price)"] "subscriptions"
          (Repository.endDatePreds endDate ++ Repository.namePreds name
            ++ Repository.usersPreds usersIds)
    ∧ Repository.sumQuery startDate ⟨[y1, y2, y3, y4, '-', m1, m2]⟩ name usersIds
      = Statement.Select ["SUM(price)"] "subscriptions"
          (Repository.startDatePreds startDate ++ Repository.namePreds name
            ++ Repository.usersPreds usersIds) := by
  have hp := Parse_monthYear_form m1 m2 y1 y2 y3 y4 hm1 hm2 h1 h2 h3 h4 hlo hhi
  have hne := form_ne_empty m1 m2 '-' y1 y2 y3 y4
  have hs := startDatePreds_form _ _ _ hlo hhi hne hp
  have he := endDatePreds_form _ _ _ hlo hhi hne hp
  have hbs := startDatePreds_bad _ (Parse_monthYear_yearMonth y1 y2 y3 y4 m1 m2 h3)
  have hbe := endDatePreds_bad _ (Parse_monthYear_yearMonth y1 y2 y3 y4 m1 m2 h3)
  refine ⟨?_, ?_, ?_, ?_⟩
  · simp only [Repository.sumQuery, hs, List.cons_append, List.nil_append, List.append_assoc]
  · simp only [Repository.sumQuery, he, List.cons_append, List.nil_append, List.append_assoc]
  · simp only [Repository.sumQuery, hbs, List.nil_append]
  · simp only [Repository.sumQuery, hbe, List.nil_append, List.append_nil, List.append_assoc]

/-- C8 at March 2024: `03-2024` adds the two bounds, `2024-03` adds nothing. -/
theorem C8_sum_dates_read_as_month_year_witness :
    Repository.sumQuery "03-2024" "" "" ""
      = Statement.Select ["SUM(price)"] "subscriptions"
          [Pred.GtOrEq "start_date" (Value.time (Date 2024 3 1 0 0 0 0))]
    ∧ Repository.sumQuery "" "03-2024" "" ""
      = Statement.Select ["SUM(price)"] "subscriptions"
          [Pred.LtOrEq "end_date" (Value.time ((Date 2024 (3 + 1) 1 0 0 0 0).Add (-Second)))]
    ∧ Repository.sumQuery "2024-03" "" "" "" = Statement.Select ["SUM(price)"] "subscriptions" []
    ∧ Repository.sumQuery "" "2024-03" "" "" = Statement.Select ["SUM(price)"] "subscriptions" [] :=
  C8_sum_dates_read_as_month_year '0' '3' '2' '0' '2' '4' (by decide) (by decide) (by decide)
    (by decide) (by decide) (by decide) (by decide) (by decide) "" "" "" ""

/-- C8 as stated fails: the strings `2024-03` and `2024-12`, valid in the format YYYY-MM, passed
as `start_date` and `end_date`, add no predicate to the sum query. -/
theorem C8_counterexample :
    Repository.sumQuery "2024-03" "2024-12" "" ""
      = Statement.Select ["SUM(price)"] "subscriptions" [] := by
  decide

/-- C9. Date bounds of the sum query. For every argument that parses as MM-YYYY, to month `m` of
year `y`: passed as `start_date`, the lower bound is 00:00:00 UTC on day 1 of that month; passed
as `end_date`, the upper bound is one second before 00:00:00 UTC on day 1 of the following month
(January of `y+1` when `m = 12`), which is 23:59:59 UTC on the last day of month `m` of year
`y`. -/
theorem C9_sum_date_bounds (s : String) (t : Time)
    (h : Parse layoutMonthYear s = Except.ok t) (other name usersIds : String) :
    ∃ (y m : Nat) (lo hi : Time),
      t.Year = y ∧ t.Month = m ∧ 1 ≤ m ∧ m ≤ 12
      ∧ Repository.sumQuery s other name usersIds
          = Statement.Select ["SUM(price)"] "subscriptions"
              (Pred.GtOrEq "start_date" (Value.time lo)
                :: (Repository.endDatePreds other ++ Repository.namePreds name
                    ++ Repository.usersPreds usersIds))
      ∧ lo.Year = y ∧ lo.Month = m ∧ lo.Day = 1 ∧ lo.Clock = (0, 0, 0) ∧ lo.nsec = 0
      ∧ Repository.sumQuery other s name usersIds
          = Statement.Select ["SUM(price)"] "subscriptions"
              (Repository.startDatePreds other
                ++ Pred.LtOrEq "end_date" (Value.time hi)
                :: (Repository.namePreds name ++ Repository.usersPreds usersIds))
      ∧ hi = (Date (if m = 12 then (y : Int) + 1 else y) (if m = 12 then 1 else (m : Int) + 1)
                1 0 0 0 0).Add (-Second)
      ∧ hi.Year = y ∧ hi.Month = m ∧ hi.Day = daysIn m y ∧ hi.Clock = (23, 59, 59)
      ∧ hi.nsec = 0 := by
  obtain ⟨m1, m2, y1, y2, y3, y4, hs, hm1, hm2, h1, h2, h3, h4, hlo, hhi, ht⟩ :=
    Parse_monthYear_date s t h
  have hne : s ≠ "" := by rw [hs]; exact form_ne_empty _ _ _ _ _ _ _
  rw [ht] at h
  have hf := first_of_month_fields
    (1000 * digitVal y1 + 100 * digitVal y2 + 10 * digitVal y3 + digitVal y4)
    (digitVal m1 * 10 + digitVal m2) hlo hhi
  have he := end_of_month_fields
    (1000 * digitVal y1 + 100 * digitVal y2 + 10 * digitVal y3 + digitVal y4)
    (digitVal m1 * 10 + digitVal m2) hlo hhi
  have hsp := startDatePreds_form _ _ s hlo hhi hne h
  have hep := endDatePreds_form _ _ s hlo hhi hne h
  refine ⟨_, _, Date _ _ 1 0 0 0 0, (Date _ (_ + 1) 1 0 0 0 0).Add (-Second),
    ?_, ?_, hlo, hhi, ?_, hf.1, hf.2.1, hf.2.2.1, hf.2.2.2.1, hf.2.2.2.2, ?_, ?_,
    he.1, he.2.1, he.2.2.1, he.2.2.2.1, he.2.2.2.2⟩
  · rw [ht]; exact hf.1
  · rw [ht]; exact hf.2.1
  · simp only [Repository.sumQuery, hsp, List.cons_append, List.nil_append, List.append_assoc]
  · simp only [Repository.sumQuery, hep, List.cons_append, List.nil_append, List.append_assoc]
  · by_cases h12 : digitVal m1 * 10 + digitVal m2 = 12
    · rw [if_pos h12, if_pos h12, h12]
      exact congrArg (fun d => Time.Add d (-Second)) (Date_month13 _)
    · rw [if_neg h12, if_neg h12]

/-- C9 at the argument `12-2024`, where the following month is in the next year. -/
theorem C9_sum_date_bounds_witness :
    ∃ (y m : Nat) (lo hi : Time),
      (Date 2024 12 1 0 0 0 0).Year = y ∧ (Date 2024 12 1 0 0 0 0).Month = m ∧ 1 ≤ m ∧ m ≤ 12
      ∧ Repository.sumQuery "12-2024" "" "Netflix" ""
          = Statement.Select ["SUM(price)"] "subscriptions"
              (Pred.GtOrEq "start_date" (Value.time lo)
                :: (Repository.endDatePreds "" ++ Repository.namePreds "Netflix"
                    ++ Repository.usersPreds ""))
      ∧ lo.Year = y ∧ lo.Month = m ∧ lo.Day = 1 ∧ lo.Clock = (0, 0, 0) ∧ lo.nsec = 0
      ∧ Repository.sumQuery "" "12-2024" "Netflix" ""
          = Statement.Select ["SUM(price)"] "subscriptions"
              (Repository.startDatePreds ""
                ++ Pred.LtOrEq "end_date" (Value.time hi)
                :: (Repository.namePreds "Netflix" ++ Repository.usersPreds ""))
      ∧ hi = (Date (if m = 12 then (y : Int) + 1 else y) (if m = 12 then 1 else (m : Int) + 1)
                1 0 0 0 0).Add (-Second)
      ∧ hi.Year = y ∧ hi.Month = m ∧ hi.Day = daysIn m y ∧ hi.Clock = (23, 59, 59)
      ∧ hi.nsec = 0 :=
  C9_sum_date_bounds "12-2024" (Date 2024 12 1 0 0 0 0) (by decide) "" "Netflix" ""

/-- C10. Malformed date filters are skipped: when `bad` does not parse as MM-YYYY, the sum query
built with `bad` as `start_date` (as `end_date`) is the query built with the empty string there,
and so is the whole outcome of `GetSumSubscriptions`, on every store: result, state and
statements executed. -/
theorem C10_malformed_date_filter_skipped {σ : Type} (pool : Pool σ) (bad : String)
    (hbad : ∀ t, Parse layoutMonthYear bad ≠ Except.ok t)
    (other name usersIds : String) (db : Db σ) :
    Repository.sumQuery bad other name usersIds = Repository.sumQuery "" other name usersIds
    ∧ Repository.sumQuery other bad name usersIds = Repository.sumQuery other "" name usersIds
    ∧ Repository.GetSumSubscriptions pool bad other name usersIds db
        = Repository.GetSumSubscriptions pool "" other name usersIds db
    ∧ Repository.GetSumSubscriptions pool other bad name usersIds db
        = Repository.GetSumSubscriptions pool other "" name usersIds db := by
  have hs := startDatePreds_bad bad hbad
  have he := endDatePreds_bad bad hbad
  have hs0 : Repository.startDatePreds "" = [] := by decide
  have he0 : Repository.endDatePreds "" = [] := by decide
  have q1 : Repository.sumQuery bad other name usersIds
      = Repository.sumQuery "" other name usersIds := by
    simp only [Repository.sumQuery, hs, hs0]
  have q2 : Repository.sumQuery other bad name usersIds
      = Repository.sumQuery other "" name usersIds := by
    simp only [Repository.sumQuery, he, he0]
  refine ⟨q1, q2, ?_, ?_⟩
  · simp only [Repository.GetSumSubscriptions, q1]
  · simp only [Repository.GetSumSubscriptions, q2]

/-- C10 at the malformed argument `2024-13x`, on the in-memory store. -/
theorem C10_malformed_date_filter_skipped_witness :
    Repository.sumQuery "2024-13x" "03-2024" "" "" = Repository.sumQuery "" "03-2024" "" ""
    ∧ Repository.sumQuery "03-2024" "2024-13x" "" "" = Repository.sumQuery "03-2024" "" "" ""
    ∧ Repository.GetSumSubscriptions memory.pool "2024-13x" "03-2024" "" "" (memory.db [])
        = Repository.GetSumSubscriptions memory.pool "" "03-2024" "" "" (memory.db [])
    ∧ Repository.GetSumSubscriptions memory.pool "03-2024" "2024-13x" "" "" (memory.db [])
        = Repository.GetSumSubscriptions memory.pool "03-2024" "" "" "" (memory.db []) :=
  C10_malformed_date_filter_skipped memory.pool "2024-13x"
    (by
      intro t h
      rw [show Parse layoutMonthYear "2024-13x" = Except.error ParseError.monthOutOfRange
        from by decide] at h
      cases h)
    "03-2024" "" "" (memory.db [])

/-- C11. The user-id filter of the sum query. For every `users_ids` string, the ids the code
collects are the list the specification describes: the pieces between the commas, each with the
white space around it trimmed, those that parse as UUIDs kept in their order. The
`user_id IN (...)` predicate carries exactly this list, and is left out when the list is empty.
A piece that does not parse is dropped without touching its neighbours, and the query returns
the sum whenever the store returns one. The pieces are those of the string (joined with commas
they give it back, and none holds a comma); trimming leaves out white space only, up to the
first and the last character that is not white space, so that a piece gives the ids it gives
without the white space around it; and the ids of a string are those of its part before a comma
followed by those of its part after it. -/
theorem C11_user_id_filter (usersIds : String) :
    Repository.validIDs usersIds = Repository.specUserIDs usersIds
    ∧ Repository.usersPreds usersIds
        = (if Repository.specUserIDs usersIds = [] then []
          else [Pred.Eq "user_id" (Value.uuids (Repository.specUserIDs usersIds))])
    ∧ (∀ startDate endDate name : String,
        Repository.sumQuery startDate endDate name usersIds
          = Statement.Select ["SUM(price)"] "subscriptions"
              (Repository.startDatePreds startDate ++ Repository.endDatePreds endDate
                ++ Repository.namePreds name
                ++ (if Repository.specUserIDs usersIds = [] then []
                    else [Pred.Eq "user_id" (Value.uuids (Repository.specUserIDs usersIds))])))
    ∧ (∀ a bad b : String, ',' ∉ bad.data → uuid.Parse (strings.TrimSpace bad) = none →
        Repository.validIDs (a ++ "," ++ bad ++ "," ++ b)
          = Repository.validIDs a ++ Repository.validIDs b)
    ∧ (∀ (σ : Type) (pool : Pool σ) (db : Db σ) (startDate endDate name : String)
        (v : Option Int),
        (pool.QueryRowSum (Repository.sumQuery startDate endDate name usersIds) db.state).1
          = Except.ok v →
        (Repository.GetSumSubscriptions pool startDate endDate name usersIds db).1
          = Except.ok (v.getD 0))
    ∧ (List.intercalate [','] ((strings.SplitComma usersIds).map String.data) = usersIds.data
        ∧ ∀ p ∈ strings.SplitComma usersIds, ',' ∉ p.data)
    ∧ (∀ p : String, ∃ pre post : List Char,
        p.data = pre ++ (strings.TrimSpace p).data ++ post
        ∧ (∀ c ∈ pre, strings.isSpace c = true) ∧ (∀ c ∈ post, strings.isSpace c = true)
        ∧ (∀ c, (strings.TrimSpace p).data.head? = some c → strings.isSpace c = false)
        ∧ (∀ c, (strings.TrimSpace p).data.getLast? = some c → strings.isSpace c = false))
    ∧ (strings.isSpace ' ' = true ∧ strings.isSpace '\t' = true ∧ strings.isSpace '\n' = true
        ∧ ∀ c, strings.isSpace c = true → c ≠ ',' ∧ c ≠ '-' ∧ uuid.xvalue c.toNat = none)
    ∧ (∀ p : String, ',' ∉ p.data →
        Repository.validIDs p = (uuid.Parse (strings.TrimSpace p)).toList)
    ∧ (∀ (pre post : List Char) (p : String), (∀ c ∈ pre, strings.isSpace c = true) →
        (∀ c ∈ post, strings.isSpace c = true) → ',' ∉ p.data →
        Repository.validIDs ⟨pre ++ p.data ++ post⟩ = Repository.validIDs p)
    ∧ (∀ a b : String,
        Repository.validIDs (a ++ "," ++ b) = Repository.validIDs a ++ Repository.validIDs b) := by
  refine ⟨Repository.validIDs_eq_spec usersIds, Repository.usersPreds_eq_spec usersIds, ?_, ?_, ?_,
    strings.SplitComma_spec usersIds, ?_,
    ⟨by decide, by decide, by decide, strings.isSpace_not_uuid_char⟩,
    Repository.validIDs_single, Repository.validIDs_pad, Repository.validIDs_append⟩
  · intro startDate endDate name
    simp only [Repository.sumQuery, Repository.usersPreds_eq_spec]
  · intro a bad b hcomma hbad
    simp only [Repository.validIDs_eq_spec, Repository.specUserIDs, strings.SplitComma_append,
      strings.SplitComma_none bad hcomma, List.map_append, List.map_cons, List.map_nil,
      List.filterMap_append, List.filterMap_cons, hbad, List.filterMap_nil, List.append_nil]
  · intro σ pool db startDate endDate name v h
    exact Repository.GetSumSubscriptions_ok pool startDate endDate name usersIds db v h
  · intro p
    exact strings.trimBoth_spec strings.isSpace p.data

/-- C11 at a string of four pieces: a UUID after a blank, a piece that is no UUID, an empty
piece, and a UUID after a tab and before two blanks. The two UUIDs are kept, in their order;
neither piece parses as it stands, with its white space. Also the dropping of the piece `abc`
between two others, and a UUID between blanks as a string of its own. -/
theorem C11_user_id_filter_witness :
    Repository.validIDs
        " 123e4567-e89b-12d3-a456-426614174000,abc,,\t00000000-0000-0000-0000-000000000001  "
      = [memory.sampleId, ⟨[0, 0, 0, 0, 0, 0, 0, 0, 0, 0, 0, 0, 0, 0, 0, 1]⟩]
    ∧ uuid.Parse " 123e4567-e89b-12d3-a456-426614174000" = none
    ∧ uuid.Parse "\t00000000-0000-0000-0000-000000000001  " = none
    ∧ Repository.validIDs
        ("123e4567-e89b-12d3-a456-426614174000" ++ "," ++ "abc" ++ ","
          ++ "00000000-0000-0000-0000-000000000001")
      = Repository.validIDs "123e4567-e89b-12d3-a456-426614174000"
        ++ Repository.validIDs "00000000-0000-0000-0000-000000000001"
    ∧ Repository.validIDs ⟨[' ', '\t'] ++ "123e4567-e89b-12d3-a456-426614174000".data ++ [' ']⟩
      = [memory.sampleId] :=
  ⟨(C11_user_id_filter
      " 123e4567-e89b-12d3-a456-426614174000,abc,,\t00000000-0000-0000-0000-000000000001  ").1.trans
      (by decide),
    by decide, by decide,
    (C11_user_id_filter "").2.2.2.1 "123e4567-e89b-12d3-a456-426614174000" "abc"
      "00000000-0000-0000-0000-000000000001" (by decide) (by decide),
    ((C11_user_id_filter "").2.2.2.2.2.2.2.2.2.1 [' ', '\t'] [' ']
      "123e4567-e89b-12d3-a456-426614174000" (by decide) (by decide) (by decide)).trans
      (by decide)⟩

/-- C12. Create-request validation in the request layer, for every decoded create body. If
`service_name` is empty, or `start_date` is the zero value, or `price` is absent, or `user_id`
is the nil UUID, the answer is 400 with an error message and the store as it was, whatever the
pool: the business logic is not reached. If the four are present, the handler makes the one
call of the business-logic create on the decoded record (with the id of the body, or the one
the handler generated), which executes exactly one insert; it answers 201 with the record that
call returns, and 500 with the error text when the call fails. -/
theorem C12_create_request_validation {σ : Type} (pool : Pool σ) (rnd rnd2 : Fin 16 → Fin 256)
    (b : reader.CreateBody) (db : Db σ) :
    ((b.service_name = "" ∨ b.start_date = MonthYear.mk ⟨0, 0⟩ ∨ b.price = none
        ∨ b.user_id = uuid.Nil) →
      ∃ msg, Handler.CreateSubscription pool rnd rnd2 (Except.ok b) db
        = (responser.SendErr 400 msg, db))
    ∧ (b.service_name ≠ "" → b.start_date ≠ MonthYear.mk ⟨0, 0⟩ → b.price ≠ none →
        b.user_id ≠ uuid.Nil →
      ∀ sub : Subscription,
        sub = ⟨b.id.getD (uuid.New rnd), b.service_name, b.price, b.user_id, b.start_date,
          b.end_date⟩ →
        (Handler.CreateSubscription pool rnd rnd2 (Except.ok b) db).2
            = (UseCase.CreateSubscription pool rnd2 sub db).2
        ∧ (Handler.CreateSubscription pool rnd rnd2 (Except.ok b) db).2.log
            = db.log ++ [Repository.insertQuery
                { sub with ID := if sub.ID = uuid.Nil then uuid.New rnd2 else sub.ID }]
        ∧ (∀ created, (UseCase.CreateSubscription pool rnd2 sub db).1 = Except.ok created →
            (Handler.CreateSubscription pool rnd rnd2 (Except.ok b) db).1
              = responser.SendOK 201 (Payload.subscription created))
        ∧ (∀ err, (UseCase.CreateSubscription pool rnd2 sub db).1 = Except.error err →
            (Handler.CreateSubscription pool rnd rnd2 (Except.ok b) db).1
              = responser.SendErr 500 err.Error)) := by
  constructor
  · intro h
    simp only [Handler.CreateSubscription, reader.ReadSubscription]
    split
    · exact ⟨_, rfl⟩
    · split
      · exact ⟨_, rfl⟩
      · split
        · exact ⟨_, rfl⟩
        · split
          · exact ⟨_, rfl⟩
          · rename_i h1 h2 h3 h4
            exfalso
            rcases h with h | h | h | h
            · exact h1 h
            · exact h2 h
            · exact h3 h
            · exact h4 h
  · intro h1 h2 h3 h4 sub hsub
    have hstart : sub.StartDate ≠ MonthYear.mk ⟨0, 0⟩ := by rw [hsub]; exact h2
    have hlog : (UseCase.CreateSubscription pool rnd2 sub db).2.log
        = db.log ++ [Repository.insertQuery
            { sub with ID := if sub.ID = uuid.Nil then uuid.New rnd2 else sub.ID }] := by
      rw [UseCase.CreateSubscription_delegates pool rnd2 sub db hstart,
        Repository.CreateSubscription_log]
    rw [Handler.CreateSubscription_reach pool rnd rnd2 b db h1 h2 h3 h4, ← hsub,
      Handler.create_snd]
    refine ⟨rfl, hlog, ?_, ?_⟩
    · intro created h
      rcases hr : UseCase.CreateSubscription pool rnd2 sub db with ⟨r, d⟩
      rw [hr] at h
      cases h
      rfl
    · intro err h
      rcases hr : UseCase.CreateSubscription pool rnd2 sub db with ⟨r, d⟩
      rw [hr] at h
      cases h
      rfl

/-- C12 at a body without `service_name`, answered 400 with the store as it was, and at a body
with the four fields, which adds one insert to the log of the empty in-memory store. -/
theorem C12_create_request_validation_witness :
    (∃ msg, Handler.CreateSubscription memory.pool (fun _ => 7) (fun _ => 9)
        (Except.ok ⟨none, "", some 999, memory.sampleId, ⟨Date 2024 3 1 0 0 0 0⟩, none⟩)
        (memory.db [])
      = (responser.SendErr 400 msg, memory.db []))
    ∧ (Handler.CreateSubscription memory.pool (fun _ => 7) (fun _ => 9)
        (Except.ok ⟨none, "Netflix", some 999, memory.sampleId, ⟨Date 2024 3 1 0 0 0 0⟩, none⟩)
        (memory.db [])).2.log
      = [Repository.insertQuery
          ⟨uuid.New (fun _ => 7), "Netflix", some 999, memory.sampleId,
            ⟨Date 2024 3 1 0 0 0 0⟩, none⟩] :=
  ⟨(C12_create_request_validation memory.pool (fun _ => 7) (fun _ => 9)
      ⟨none, "", some 999, memory.sampleId, ⟨Date 2024 3 1 0 0 0 0⟩, none⟩ (memory.db [])).1
      (Or.inl rfl),
    ((C12_create_request_validation memory.pool (fun _ => 7) (fun _ => 9)
      ⟨none, "Netflix", some 999, memory.sampleId, ⟨Date 2024 3 1 0 0 0 0⟩, none⟩
      (memory.db [])).2 (by decide) (by decide) (by decide) (by decide) _ rfl).2.1.trans
      (by decide)⟩

/-- C13. The `start_date` string of an update body. When the body has a string under
`start_date`: if the string parses as YYYY-MM to a time that is not zero, the field map that goes
on is the body with the entries under `start_date` replaced by that time, which is day 1 of the
month at 00:00:00 UTC, the other entries as they were, and, for an id the path spells, the
answer of the handler is made from the outcome of the business logic on this map; if the string
does not parse to a non-zero time, as is the case of every string in the form MM-YYYY, the
handler answers 400 and leaves the store as it was, whatever the id. -/
theorem C13_update_start_date_string {σ : Type} (pool : Pool σ) (idVar : Option String)
    (updates : FieldMap) (s : String) (db : Db σ)
    (hs : updates.lookup "start_date" = some (Value.str s)) :
    (∀ t, Parse layoutYearMonth s = Except.ok t → t.IsZero = false →
        Handler.parsedStartDate updates
            = some (updates.map fun e =>
                if e.1 = "start_date" then ("start_date", Value.time t) else e)
        ∧ t.Day = 1 ∧ t.Clock = (0, 0, 0) ∧ t.nsec = 0
        ∧ (updates.map fun e =>
              if e.1 = "start_date" then ("start_date", Value.time t) else e).lookup "start_date"
            = some (Value.time t)
        ∧ (∀ k, k ≠ "start_date" →
            (updates.map fun e =>
              if e.1 = "start_date" then ("start_date", Value.time t) else e).lookup k
              = updates.lookup k)
        ∧ ∀ idStr id, idVar = some idStr → uuid.Parse idStr = some id →
            (Handler.UpdateSubscription pool idVar (Except.ok updates) db).2
                = (UseCase.UpdateSubscription pool id (updates.map fun e =>
                    if e.1 = "start_date" then ("start_date", Value.time t) else e) db).2
            ∧ (∀ sub, (UseCase.UpdateSubscription pool id (updates.map fun e =>
                    if e.1 = "start_date" then ("start_date", Value.time t) else e) db).1
                  = Except.ok sub →
                (Handler.UpdateSubscription pool idVar (Except.ok updates) db).1
                  = responser.SendOK 200 (Payload.subscription sub))
            ∧ (∀ err, (UseCase.UpdateSubscription pool id (updates.map fun e =>
                    if e.1 = "start_date" then ("start_date", Value.time t) else e) db).1
                  = Except.error err →
                (Handler.UpdateSubscription pool idVar (Except.ok updates) db).1
                  = responser.SendErr 500 err.Error))
    ∧ ((∀ t, Parse layoutYearMonth s = Except.ok t → t.IsZero = true) →
        (Handler.UpdateSubscription pool idVar (Except.ok updates) db).1.status = 400
          ∧ (Handler.UpdateSubscription pool idVar (Except.ok updates) db).2 = db)
    ∧ (∀ m1 m2 y1 y2 y3 y4 : Char, s = ⟨[m1, m2, '-', y1, y2, y3, y4]⟩ →
        (Handler.UpdateSubscription pool idVar (Except.ok updates) db).1.status = 400
          ∧ (Handler.UpdateSubscription pool idVar (Except.ok updates) db).2 = db) := by
  have hne : updates ≠ [] := lookup_ne_nil _ _ _ hs
  have hbad : (∀ t, Parse layoutYearMonth s = Except.ok t → t.IsZero = true) →
      Handler.parsedStartDate updates = none := by
    intro h
    simp only [Handler.parsedStartDate, hs]
    cases hp : Parse layoutYearMonth s with
    | error e => rfl
    | ok t => simp only [h t hp, if_true]
  have h400 : (∀ t, Parse layoutYearMonth s = Except.ok t → t.IsZero = true) →
      (Handler.UpdateSubscription pool idVar (Except.ok updates) db).1.status = 400
        ∧ (Handler.UpdateSubscription pool idVar (Except.ok updates) db).2 = db := by
    intro h
    exact Handler.UpdateSubscription_invalid pool idVar _ db
      (Or.inr (Or.inr (Or.inr (Or.inr (Or.inr ⟨updates, rfl, hbad h⟩)))))
  refine ⟨?_, h400, ?_⟩
  · intro t hp hz
    have hc : Handler.parsedStartDate updates
        = some (updates.map fun e =>
            if e.1 = "start_date" then ("start_date", Value.time t) else e) := by
      simp only [Handler.parsedStartDate, hs, hp, hz, Bool.false_eq_true, if_false,
        FieldMap.set_eq_map _ _ _ _ hs]
    obtain ⟨y1, y2, y3, y4, m1, m2, -, -, -, -, -, -, -, hlo, hhi, ht⟩ :=
      Parse_yearMonth_date s t hp
    generalize 1000 * digitVal y1 + 100 * digitVal y2 + 10 * digitVal y3 + digitVal y4 = y at ht
    generalize digitVal m1 * 10 + digitVal m2 = mo at ht hlo hhi
    have hf := first_of_month_fields y mo hlo hhi
    rw [← ht] at hf
    refine ⟨hc, hf.2.2.1, hf.2.2.2.1, hf.2.2.2.2, ?_, ?_, ?_⟩
    · rw [← FieldMap.set_eq_map _ _ _ _ hs]
      exact FieldMap.lookup_set _ _ _ _ hs
    · intro k hk
      exact FieldMap.lookup_map_other _ _ _ _ hk
    · intro idStr id hid hparse
      subst hid
      rw [Handler.UpdateSubscription_reach pool idStr id updates _ db hparse hne hc]
      rcases UseCase.UpdateSubscription pool id _ db with ⟨r, d⟩
      refine ⟨?_, ?_, ?_⟩
      · cases r <;> rfl
      · intro sub h; cases h; rfl
      · intro err h; cases h; rfl
  · intro m1 m2 y1 y2 y3 y4 hform
    apply h400
    intro t hp
    rw [hform] at hp
    exact absurd hp (Parse_yearMonth_monthYear m1 m2 y1 y2 y3 y4 t)

/-- C13 at the body with `start_date` `2024-03`, which goes on as 2024-03-01 00:00:00 UTC, and
at the body with `start_date` `03-2024`, which is answered 400. -/
theorem C13_update_start_date_string_witness :
    Handler.parsedStartDate [("price", Value.number 1099), ("start_date", Value.str "2024-03")]
      = some [("price", Value.number 1099), ("start_date", Value.time (Date 2024 3 1 0 0 0 0))]
    ∧ (Handler.UpdateSubscription memory.pool (some "123e4567-e89b-12d3-a456-426614174000")
        (Except.ok [("start_date", Value.str "03-2024")])
        (memory.db [memory.sampleRow])).1.status = 400
    ∧ (Handler.UpdateSubscription memory.pool (some "123e4567-e89b-12d3-a456-426614174000")
        (Except.ok [("start_date", Value.str "03-2024")])
        (memory.db [memory.sampleRow])).2 = memory.db [memory.sampleRow] :=
  ⟨((C13_update_start_date_string memory.pool (some "123e4567-e89b-12d3-a456-426614174000")
      [("price", Value.number 1099), ("start_date", Value.str "2024-03")] "2024-03"
      (memory.db [memory.sampleRow]) (by decide)).1
      (Date 2024 3 1 0 0 0 0) (by decide) (by decide)).1,
    (C13_update_start_date_string memory.pool (some "123e4567-e89b-12d3-a456-426614174000")
      [("start_date", Value.str "03-2024")] "03-2024"
      (memory.db [memory.sampleRow]) (by decide)).2.2 '0' '3' '2' '0' '2' '4' rfl⟩

/-- C14 (as the code has it). The sum query gets no `user_id` predicate exactly when no piece of
`users_ids` between the commas, with the white space around it trimmed, parses as a UUID;
then the query built, and the whole outcome of `GetSumSubscriptions` on every store, are those
of the empty `users_ids`. The trimming counts: a UUID with white space around it, as the whole
argument, does give the predicate for its id. -/
theorem C14_no_valid_user_id_no_filter {σ : Type} (pool : Pool σ) (usersIds : String)
    (startDate endDate name : String) (db : Db σ) :
    (Repository.usersPreds usersIds = []
      ↔ ∀ p ∈ strings.SplitComma usersIds, uuid.Parse (strings.TrimSpace p) = none)
    ∧ ((∀ p ∈ strings.SplitComma usersIds, uuid.Parse (strings.TrimSpace p) = none) →
        Repository.sumQuery startDate endDate name usersIds
          = Repository.sumQuery startDate endDate name ""
        ∧ Repository.GetSumSubscriptions pool startDate endDate name usersIds db
          = Repository.GetSumSubscriptions pool startDate endDate name "" db)
    ∧ (∀ (pre post : List Char) (p : String) (id : UUID),
        (∀ c ∈ pre, strings.isSpace c = true) → (∀ c ∈ post, strings.isSpace c = true) →
        ',' ∉ p.data → uuid.Parse (strings.TrimSpace p) = some id →
        Repository.usersPreds ⟨pre ++ p.data ++ post⟩
          = [Pred.Eq "user_id" (Value.uuids [id])]) := by
  have hiff : Repository.specUserIDs usersIds = []
      ↔ ∀ p ∈ strings.SplitComma usersIds, uuid.Parse (strings.TrimSpace p) = none := by
    simp only [Repository.specUserIDs, List.filterMap_eq_nil_iff, List.mem_map,
      forall_exists_index, and_imp, forall_apply_eq_imp_iff₂]
  have hu : Repository.usersPreds usersIds = [] ↔ Repository.specUserIDs usersIds = [] := by
    rw [Repository.usersPreds_eq_spec]
    by_cases hs : Repository.specUserIDs usersIds = []
    · rw [if_pos hs]
      exact ⟨fun _ => hs, fun _ => rfl⟩
    · rw [if_neg hs]
      exact ⟨fun h => absurd h (List.cons_ne_nil _ _), fun h => absurd h hs⟩
  refine ⟨hu.trans hiff, ?_, ?_⟩
  · intro h
    have hu0 : Repository.usersPreds "" = [] := by decide
    have hq : Repository.sumQuery startDate endDate name usersIds
        = Repository.sumQuery startDate endDate name "" := by
      simp only [Repository.sumQuery, (hu.trans hiff).mpr h, hu0]
    refine ⟨hq, ?_⟩
    simp only [Repository.GetSumSubscriptions, hq]
  · intro pre post p id hpre hpost hcomma hparse
    have hv : Repository.specUserIDs ⟨pre ++ p.data ++ post⟩ = [id] := by
      rw [← Repository.validIDs_eq_spec, Repository.validIDs_pad pre post p hpre hpost hcomma,
        Repository.validIDs_single p hcomma, hparse]
      rfl
    rw [Repository.usersPreds_eq_spec, hv, if_neg (List.cons_ne_nil _ _)]

/-- C14 at the arguments `abc` and `,,`, on the in-memory store with the sample record, and at
the sample id after a blank, which gives the predicate. -/
theorem C14_no_valid_user_id_no_filter_witness :
    (Repository.usersPreds "abc" = []
      ∧ Repository.sumQuery "" "" "Netflix" "abc" = Repository.sumQuery "" "" "Netflix" ""
      ∧ Repository.GetSumSubscriptions memory.pool "" "" "Netflix" "abc"
          (memory.db [memory.sampleRow])
        = Repository.GetSumSubscriptions memory.pool "" "" "Netflix" ""
          (memory.db [memory.sampleRow]))
    ∧ (Repository.usersPreds ",," = []
      ∧ Repository.sumQuery "" "" "Netflix" ",," = Repository.sumQuery "" "" "Netflix" ""
      ∧ Repository.GetSumSubscriptions memory.pool "" "" "Netflix" ",,"
          (memory.db [memory.sampleRow])
        = Repository.GetSumSubscriptions memory.pool "" "" "Netflix" ""
          (memory.db [memory.sampleRow]))
    ∧ Repository.usersPreds " 123e4567-e89b-12d3-a456-426614174000" ≠ []
    ∧ Repository.usersPreds ⟨[' '] ++ "123e4567-e89b-12d3-a456-426614174000".data ++ []⟩
      = [Pred.Eq "user_id" (Value.uuids [memory.sampleId])] :=
  have h1 := C14_no_valid_user_id_no_filter memory.pool "abc" "" "" "Netflix"
    (memory.db [memory.sampleRow])
  have h2 := C14_no_valid_user_id_no_filter memory.pool ",," "" "" "Netflix"
    (memory.db [memory.sampleRow])
  have h3 := C14_no_valid_user_id_no_filter memory.pool
    " 123e4567-e89b-12d3-a456-426614174000" "" "" "Netflix" (memory.db [memory.sampleRow])
  ⟨⟨h1.1.mpr (by decide), h1.2.1 (by decide)⟩, ⟨h2.1.mpr (by decide), h2.2.1 (by decide)⟩,
    fun h => absurd (h3.1.mp h) (by decide),
    h3.2.2 [' '] [] "123e4567-e89b-12d3-a456-426614174000" memory.sampleId (by decide)
      (by decide) (by decide) (by decide)⟩

/-- C14 as stated fails: in the argument of a blank and the sample id, the one piece between
the commas does not parse as a UUID, yet the query gets the `user_id` predicate for the sample
id: it is not the query of the empty argument, and on the store of two users' records, priced
100 and 200, the sum is 100 and not the 300 of all records. -/
theorem C14_counterexample :
    " 123e4567-e89b-12d3-a456-426614174000" ≠ ""
    ∧ (∀ p ∈ strings.SplitComma " 123e4567-e89b-12d3-a456-426614174000", uuid.Parse p = none)
    ∧ Repository.usersPreds " 123e4567-e89b-12d3-a456-426614174000"
        = [Pred.Eq "user_id" (Value.uuids [memory.sampleId])]
    ∧ Repository.sumQuery "" "" "" " 123e4567-e89b-12d3-a456-426614174000"
        ≠ Repository.sumQuery "" "" "" ""
    ∧ (Repository.GetSumSubscriptions memory.pool "" "" ""
        " 123e4567-e89b-12d3-a456-426614174000"
        (memory.db [{ memory.sampleRow with Price := some 100 },
          { memory.sampleRow with
              ID := ⟨[0, 0, 0, 0, 0, 0, 0, 0, 0, 0, 0, 0, 0, 0, 0, 2]⟩, Price := some 200,
              UserID := ⟨[0, 0, 0, 0, 0, 0, 0, 0, 0, 0, 0, 0, 0, 0, 0, 1]⟩ }])).1
        = Except.ok 100
    ∧ (Repository.GetSumSubscriptions memory.pool "" "" "" ""
        (memory.db [{ memory.sampleRow with Price := some 100 },
          { memory.sampleRow with
              ID := ⟨[0, 0, 0, 0, 0, 0, 0, 0, 0, 0, 0, 0, 0, 0, 0, 2]⟩, Price := some 200,
              UserID := ⟨[0, 0, 0, 0, 0, 0, 0, 0, 0, 0, 0, 0, 0, 0, 0, 1]⟩ }])).1
        = Except.ok 300 := by
  refine ⟨by decide, by decide, by decide, by decide, by decide, by decide⟩

end Subscriptions
